import Mathlib

/-!
Shallow embedding of `src/clg/table.py` (fmenabe/python-clg-table).

Python strings are modeled as lists of characters (`PyStr`); Python integers
as `Int` (widths can be negative in the source, e.g. `-1` means "unset");
fallible code returns `Except PyError`.  Loops whose termination depends on
data (`Cell.split_word`, the allocator's growth loop) are modeled with a fuel
parameter large enough that the model agrees with the Python code on every
input on which the Python code terminates.
-/

set_option maxRecDepth 20000

abbrev PyStr := List Char

/-- Python slice `s[0:n]`: a negative `n` counts from the end, clamped at 0. -/
def pyTake (s : PyStr) (n : Int) : PyStr :=
  if 0 ≤ n then s.take n.toNat else s.take ((s.length : Int) + n).toNat

/-- Python slice `s[n:]`: a negative `n` counts from the end, clamped at 0. -/
def pyDrop (s : PyStr) (n : Int) : PyStr :=
  if 0 ≤ n then s.drop n.toNat else s.drop ((s.length : Int) + n).toNat

/-- Python `line.split(' ')`: split on every single space, keeping empty
fields (so `'a  b'.split(' ') = ['a', '', 'b']` and `''.split(' ') = ['']`). -/
def pySplitSp : PyStr → List PyStr
  | [] => [[]]
  | ch :: rest =>
      let acc := pySplitSp rest
      if ch = ' ' then [] :: acc
      else match acc with
           | f :: r => (ch :: f) :: r
           | [] => [[ch]]

/-- Horizontal alignment (`halign` attribute): `'left' | 'center' | 'right'`. -/
inductive Halign | left | center | right
deriving DecidableEq, Repr

/-- `BorderVisibility = namedlist('BorderVisibility', ('top','right','bottom','left'))`. -/
structure BorderVisibility where
  top : Bool
  right : Bool
  bottom : Bool
  left : Bool
deriving DecidableEq, Repr

/-- One table entry (`class Cell`).  `text` is the line list (the constructor
splits a plain string on `'\n'`, so a string argument always yields a
non-empty line list; a list argument is taken as is).  Sizing fields use the
source's `-1`-means-unset convention. -/
structure Cell where
  text : List PyStr
  min_width : Int
  width : Int
  max_width : Int
  padding_top : Nat
  padding_bottom : Nat
  padding_left : Nat
  padding_right : Nat
  halign : Halign
  newline_indent : Nat
  border_color : Option PyStr
  text_color : Option PyStr
  border_visibility : BorderVisibility
deriving DecidableEq, Repr

/-- A `Cell` with the constructor's default keyword values and the given text. -/
def mkCell (text : List PyStr) : Cell :=
  { text := text, min_width := -1, width := -1, max_width := -1,
    padding_top := 0, padding_bottom := 0, padding_left := 1, padding_right := 1,
    halign := Halign.left, newline_indent := 1,
    border_color := none, text_color := none,
    border_visibility := ⟨true, true, true, true⟩ }

/-- `Cell.get_min_width`. -/
def Cell.get_min_width (c : Cell) : Int :=
  if c.min_width ≠ -1 then c.min_width
  else (c.padding_left : Int) + 1 + c.padding_right

/-- `Cell.get_text_width`. -/
def Cell.get_text_width (c : Cell) : Int :=
  (c.padding_left : Int)
    + (if c.text.isEmpty then 0 else ((c.text.map List.length).foldl max 0 : Nat))
    + c.padding_right

/-- Python `'{:{align}{width}s}'.format(value, ...)`: pad (never truncate) to
`width` using the alignment; `^` puts the extra space on the right. -/
def pyFormatPad (value : PyStr) (align : Halign) (width : Int) : PyStr :=
  let pad := (width - (value.length : Int)).toNat
  match align with
  | Halign.left => value ++ List.replicate pad ' '
  | Halign.center =>
      List.replicate (pad / 2) ' ' ++ value ++ List.replicate (pad - pad / 2) ' '
  | Halign.right => List.replicate pad ' ' ++ value

/-- `Cell.format`: add the left/right paddings, then align to
`width + padding_left + padding_right`. -/
def Cell.format (c : Cell) (value : PyStr) (width : Int) : PyStr :=
  let value := List.replicate c.padding_left ' ' ++ value ++ List.replicate c.padding_right ' '
  pyFormatPad value c.halign (width + c.padding_left + c.padding_right)

/-- The body of `Cell.split_word`'s `while word:` loop.  Each iteration chops
`cur_width` characters off the word (`width` for the first line,
`width - newline_indent` afterwards, with Python slice semantics) and prefixes
continuation chunks with the indent.  The fuel only bounds the number of
iterations; `word.length + 1` fuel is enough whenever the Python loop
terminates, since a terminating iteration consumes at least one character. -/
def Cell.split_wordGo (indent : Nat) (width : Int) : Nat → PyStr → Bool → List PyStr
  | _, [], _ => []
  | 0, _ :: _, _ => []
  | fuel+1, ch :: rest, first_line =>
      let word := ch :: rest
      let cur_width := if first_line then width else width - (indent : Int)
      let string :=
        (if first_line then ([] : PyStr) else List.replicate indent ' ') ++ pyTake word cur_width
      string :: Cell.split_wordGo indent width fuel (pyDrop word cur_width) false

/-- `Cell.split_word(word, width)`. -/
def Cell.split_word (c : Cell) (word : PyStr) (width : Int) : List PyStr :=
  Cell.split_wordGo c.newline_indent width (word.length + 1) word true

/-- The `at_start` lambda in `Cell.split_text`. -/
def at_start (indent : Nat) (line : PyStr) : Bool :=
  line == [] || line == List.replicate indent ' ' || line.head? == some ' '

/-- The `while words:` loop of `Cell.split_text`: greedily pack words into
`cur_line`; overlong words are hard-split via `split_word`; after the loop the
remaining line is appended unless `at_start` holds for it. -/
def Cell.splitWords (c : Cell) (width : Int) : List PyStr → PyStr → List PyStr
  | [], cur_line =>
      if at_start c.newline_indent cur_line then [] else [c.format cur_line width]
  | word :: words, cur_line =>
      let new_line :=
        if word = [] then cur_line ++ [' ']
        else cur_line ++ (if at_start c.newline_indent cur_line then [] else [' ']) ++ word
      if (new_line.length : Int) > width then
        if (word.length : Int) > width then
          (c.split_word new_line width).map (fun s => c.format s width)
            ++ c.splitWords width words (List.replicate c.newline_indent ' ')
        else
          let cur' := List.replicate c.newline_indent ' ' ++ word
          if (cur'.length : Int) > width then
            c.format cur_line width
              :: ((c.split_word cur' width).map (fun s => c.format s width)
                  ++ c.splitWords width words (List.replicate c.newline_indent ' '))
          else
            c.format cur_line width :: c.splitWords width words cur'
      else
        c.splitWords width words new_line

/-- The per-input-line dispatch of `Cell.split_text`: short lines are
formatted directly, long lines go through the word-packing loop. -/
def Cell.split_textLines (c : Cell) (width : Int) : List PyStr → List PyStr
  | [] => []
  | line :: rest =>
      (if (line.length : Int) ≤ width then [c.format line width]
       else c.splitWords width (pySplitSp line) [])
        ++ c.split_textLines width rest

/-- `Cell.split_text(width)`: prepend/append the top/bottom padding lines
(the source inserts the one-space string `' '`), subtract the left/right
paddings from the width, and process every line.  The source stores the
result back into `cell.text`; the model returns it. -/
def Cell.split_text (c : Cell) (width : Int) : List PyStr :=
  let text := List.replicate c.padding_top ([' '] : PyStr)
      ++ c.text ++ List.replicate c.padding_bottom [' ']
  c.split_textLines (width - c.padding_left - c.padding_right) text

/-! Raw (pre-`format`) variants of the splitting pipeline: identical control
flow, but collecting the strings *fed to* `Cell.format` instead of its
results.  `Cell.split_text_eq_raw` below proves
`split_text = (raw pieces).map (format · effective-width)`. -/

/-- Raw variant of `Cell.splitWords`. -/
def Cell.splitWordsRaw (c : Cell) (width : Int) : List PyStr → PyStr → List PyStr
  | [], cur_line =>
      if at_start c.newline_indent cur_line then [] else [cur_line]
  | word :: words, cur_line =>
      let new_line :=
        if word = [] then cur_line ++ [' ']
        else cur_line ++ (if at_start c.newline_indent cur_line then [] else [' ']) ++ word
      if (new_line.length : Int) > width then
        if (word.length : Int) > width then
          c.split_word new_line width
            ++ c.splitWordsRaw width words (List.replicate c.newline_indent ' ')
        else
          let cur' := List.replicate c.newline_indent ' ' ++ word
          if (cur'.length : Int) > width then
            cur_line
              :: (c.split_word cur' width
                  ++ c.splitWordsRaw width words (List.replicate c.newline_indent ' '))
          else
            cur_line :: c.splitWordsRaw width words cur'
      else
        c.splitWordsRaw width words new_line

/-- Raw variant of `Cell.split_textLines`. -/
def Cell.split_textLinesRaw (c : Cell) (width : Int) : List PyStr → List PyStr
  | [] => []
  | line :: rest =>
      (if (line.length : Int) ≤ width then [line]
       else c.splitWordsRaw width (pySplitSp line) [])
        ++ c.split_textLinesRaw width rest

/-- Raw variant of `Cell.split_text`: the unformatted pieces. -/
def Cell.split_textRaw (c : Cell) (width : Int) : List PyStr :=
  let text := List.replicate c.padding_top ([' '] : PyStr)
      ++ c.text ++ List.replicate c.padding_bottom [' ']
  c.split_textLinesRaw (width - c.padding_left - c.padding_right) text

/-! ## Buffer (`class Buffer(list)`) -/

/-- Python truthiness of an optional string: `None` and `''` are falsy. -/
def pyTruthy : Option PyStr → Bool
  | none => false
  | some s => !s.isEmpty

/-- Python `a or b` on optional strings (first truthy operand, else `b`). -/
def pyOr (a b : Option PyStr) : Option PyStr :=
  if pyTruthy a then a else b

/-- The first truthy value of a list, or `None` — the claim-side reading of
`value or existing or fill`. -/
def firstTruthy (vals : List (Option PyStr)) : Option PyStr :=
  (vals.find? pyTruthy).getD none

/-- `Buffer.get(index, default)`. -/
def Buffer.get (buf : List (Option PyStr)) (index : Nat) (default : Option PyStr) :
    Option PyStr :=
  (buf.get? index).getD default

/-- `Buffer.set(index, value, fill='?')`: in range, store
`value or self[index] or fill`; out of range (the `except IndexError` arm),
extend with `fill` up to `index` and append `value or fill`. -/
def Buffer.set (buf : List (Option PyStr)) (index : Nat) (value fill : Option PyStr) :
    List (Option PyStr) :=
  match buf.get? index with
  | some existing => buf.set index (pyOr value (pyOr existing fill))
  | none => buf ++ List.replicate (index - buf.length) fill ++ [pyOr value fill]

/-- `Buffer.setdefault(index, value, fill='?')`: in range, keep the existing
element; out of range, extend with `fill` and append `value`. -/
def Buffer.setdefault (buf : List (Option PyStr)) (index : Nat) (value fill : Option PyStr) :
    List (Option PyStr) :=
  match buf.get? index with
  | some _ => buf
  | none => buf ++ List.replicate (index - buf.length) fill ++ [value]

/-! ## Rows and the column-width allocator -/

/-- `class Row` (and `Header`, structurally identical). -/
structure Row where
  cells : List Cell
deriving DecidableEq, Repr

/-- `ColumnWidths = namedlist(..., ('width','min_width','max_width','text_width'))`. -/
structure ColumnWidths where
  width : Int
  min_width : Int
  max_width : Int
  text_width : Int
deriving DecidableEq, Repr

/-- The per-cell update of one column aggregate (first phase of
`_get_columns_widths`): component-wise `max`. -/
def updateColumn (col : ColumnWidths) (cell : Cell) : ColumnWidths :=
  { width := max cell.width col.width,
    min_width := max cell.get_min_width col.min_width,
    max_width := max cell.max_width col.max_width,
    text_width := max cell.get_text_width col.text_width }

/-- Fold one row's cells into the column aggregates, appending a fresh
`(-1,-1,-1,-1)` aggregate whenever the row is longer than the list so far. -/
def aggCells : List ColumnWidths → List Cell → List ColumnWidths
  | cols, [] => cols
  | [], cell :: cells => updateColumn ⟨-1, -1, -1, -1⟩ cell :: aggCells [] cells
  | col :: cols, cell :: cells => updateColumn col cell :: aggCells cols cells

/-- The column aggregates over all rows. -/
def aggregateColumns (rows : List Row) : List ColumnWidths :=
  rows.foldl (fun cols row => aggCells cols row.cells) []

/-- One column's seed (width, done-status): an explicit width marks the
column done; otherwise `min_width`, done only when the text already fits. -/
def seedOf (col : ColumnWidths) : Int × Bool :=
  if col.width ≠ -1 then (col.width, true)
  else (col.min_width, decide (col.text_width ≤ col.min_width))

/-- Seeding phase of `_get_columns_widths`; every seeded width is subtracted
from `remaining_size`. -/
def seedWidths : List ColumnWidths → Int → List Int × List Bool × Int
  | [], remaining => ([], [], remaining)
  | col :: cols, remaining =>
      let rest := seedWidths cols (remaining - (seedOf col).1)
      ((seedOf col).1 :: rest.1, (seedOf col).2 :: rest.2.1, rest.2.2)

/-- One pass of the growth loop (`for idx, column in enumerate(...)`): grant
one unit to each not-done column below its preferred width, marking it done
on reaching the target, and `break` as soon as `remaining` drops to zero. -/
def growPass : List ColumnWidths → List Int → List Bool → Int →
    List Int × List Bool × Int
  | col :: cols, w :: ws, st :: sts, r =>
      if st then
        let rest := growPass cols ws sts r
        (w :: rest.1, st :: rest.2.1, rest.2.2)
      else
        let preferred := if col.max_width ≠ -1 then col.max_width else col.text_width
        if w < preferred then
          let w2 := w + 1
          let r2 := r - 1
          let st2 := decide (w2 = preferred)
          if r2 ≤ 0 then (w2 :: ws, st2 :: sts, r2)
          else
            let rest := growPass cols ws sts r2
            (w2 :: rest.1, st2 :: rest.2.1, rest.2.2)
        else
          let rest := growPass cols ws sts r
          (w :: rest.1, st :: rest.2.1, rest.2.2)
  | _, ws, sts, r => (ws, sts, r)

/-- The `while True:` growth loop, fueled.  Every terminating Python run has
each pass grant at least one unit (otherwise the state is a fixpoint and the
Python loop never exits), so `remaining.toNat + 1` passes reproduce every
terminating Python run; on Python's divergent inputs (a `max_width` below the
seeded width keeps a column not-done forever) the model returns the loop's
fixpoint state. -/
def growLoop (cols : List ColumnWidths) :
    Nat → List Int → List Bool → Int → List Int × List Bool × Int
  | 0, ws, sts, r => (ws, sts, r)
  | fuel+1, ws, sts, r =>
      if r ≤ 0 ∨ sts.all id then (ws, sts, r)
      else
        let next := growPass cols ws sts r
        growLoop cols fuel next.1 next.2.1 next.2.2

/-- `remaining_size` right after seeding. -/
def seedRemaining (rows : List Row) (term_width : Int) : Int :=
  let cols := aggregateColumns rows
  (seedWidths cols (term_width - cols.length - 1)).2.2

/-- `TextTable._get_columns_widths`, with the terminal width injected
(`term_width()` shells out to `tput cols`; the spec requires the allocator to
accept it as an input).  Returns the allocated widths together with the final
`remaining_size`; the source logs the overflow warning exactly when the
latter is negative. -/
def get_columns_widths (rows : List Row) (term_width : Int) : List Int × Int :=
  let cols := aggregateColumns rows
  let r0 := term_width - cols.length - 1
  let seeded := seedWidths cols r0
  let grown := growLoop cols (seeded.2.2.toNat + 1) seeded.1 seeded.2.1 seeded.2.2
  (grown.1, grown.2.2)

/-! ## Styles and the border composer -/

/-- Python exceptions.  `keyError`, `indexError` and `valueError` are the
ones the modeled paths can raise; `clgTableError` is the source's
`class CLGTableError(Exception)` — declared at the top of the module and
raised nowhere — included so statements about the structural-consistency
error are expressible. -/
inductive PyError | keyError | indexError | valueError | clgTableError
deriving DecidableEq, Repr

/-- The eleven junction roles of a style plus the blank (`'none'`). -/
inductive Role
  | topleft | topright | bottomleft | bottomright
  | vertical | horizontal | intersection
  | topinter | bottominter | leftinter | rightinter | none
deriving DecidableEq, Repr

/-- `STYLES['modern']`. -/
def modernStyle : Role → PyStr
  | Role.topleft => ['┌']
  | Role.topright => ['┐']
  | Role.bottomleft => ['└']
  | Role.bottomright => ['┘']
  | Role.vertical => ['│']
  | Role.horizontal => ['─']
  | Role.intersection => ['┼']
  | Role.topinter => ['┬']
  | Role.bottominter => ['┴']
  | Role.leftinter => ['├']
  | Role.rightinter => ['┤']
  | Role.none => [' ']

/-- `STYLES['classic']`. -/
def classicStyle : Role → PyStr
  | Role.topleft => ['+']
  | Role.topright => ['+']
  | Role.bottomleft => ['+']
  | Role.bottomright => ['+']
  | Role.vertical => ['|']
  | Role.horizontal => ['-']
  | Role.intersection => ['+']
  | Role.topinter => ['+']
  | Role.bottominter => ['+']
  | Role.leftinter => ['+']
  | Role.rightinter => ['+']
  | Role.none => [' ']

/-- The `STYLES` registry; `STYLES[name]` on an unknown name is a `KeyError`. -/
def STYLES : List (String × (Role → PyStr)) :=
  [("modern", modernStyle), ("classic", classicStyle)]

/-- A cell edge name. -/
inductive Side | top | right | bottom | left
deriving DecidableEq, Repr

/-- `getattr(border_visibility, side)`. -/
def visSide (bv : BorderVisibility) : Side → Bool
  | Side.top => bv.top
  | Side.right => bv.right
  | Side.bottom => bv.bottom
  | Side.left => bv.left

/-- The `rside` table of `get_visibility`. -/
def oppositeSide : Side → Side
  | Side.top => Side.bottom
  | Side.right => Side.left
  | Side.bottom => Side.top
  | Side.left => Side.right

/-- A missing index (`IndexError`). -/
def expectIdx {α : Type _} : Option α → Except PyError α
  | some a => Except.ok a
  | Option.none => Except.error PyError.indexError

/-- A missing dict key (`KeyError`). -/
def expectKey {α : Type _} : Option α → Except PyError α
  | some a => Except.ok a
  | Option.none => Except.error PyError.keyError

/-- `class TextTable(Table)`.  A Python `Table` *is a* `list` of rows, so the
list contents (`elems`) are what iteration, indexing and `len` see.  `flush`
assigns a separate `rows` *attribute* (`rows_attr`); nothing reads it.  The
constructor also receives `text_color`/`border_color` arguments and a
`widths` argument but stores none of them (`self.widths = []`
unconditionally), and initializes an unused `heigths = []`. -/
structure TextTable where
  elems : List Row
  widths : List Int
  title : Option PyStr
  style : String
  rows_attr : Option (List Row)
deriving Repr

/-- `TextTable.__init__` (note: the `widths` parameter is dropped, and no
style validation happens here). -/
def TextTable.init (_widths : List Int) (title : Option PyStr) (style : String) : TextTable :=
  { elems := [], widths := [], title := title, style := style, rows_attr := Option.none }

/-- `TextTable.get_visibility(row_idx, col_idx, x, y, side)`: this cell's
`side` flag AND the `(row_idx+y, col_idx+x)` neighbor's opposite flag,
falling back to this cell's flag alone when the neighbor is missing (the
nested `try/except IndexError`).  The initial cell lookup is *outside* the
`try`, so a missing `(row_idx, col_idx)` cell raises `IndexError`. -/
def TextTable.get_visibility (t : TextTable) (row_idx col_idx x y : Nat) (side : Side) :
    Except PyError Bool := do
  let row ← expectIdx (t.elems.get? row_idx)
  let cell ← expectIdx (row.cells.get? col_idx)
  let rside := oppositeSide side
  match t.elems.get? (row_idx + y) with
  | Option.none => pure (visSide cell.border_visibility side)
  | some nrow =>
      match nrow.cells.get? (col_idx + x) with
      | Option.none => pure (visSide cell.border_visibility side)
      | some ncell =>
          pure (visSide cell.border_visibility side && visSide ncell.border_visibility rside)

/-- `TextTable.get_color(row_idx, col_idx, x, y)`: the `(row_idx+y, col_idx+x)`
neighbor's border color, falling back to this cell's on a missing neighbor. -/
def TextTable.get_color (t : TextTable) (row_idx col_idx x y : Nat) :
    Except PyError (Option PyStr) := do
  let row ← expectIdx (t.elems.get? row_idx)
  let cell ← expectIdx (row.cells.get? col_idx)
  match t.elems.get? (row_idx + y) with
  | Option.none => pure cell.border_color
  | some nrow =>
      match nrow.cells.get? (col_idx + x) with
      | Option.none => pure cell.border_color
      | some ncell => pure ncell.border_color

/-- A condition key of the nested `get_symbol` mappings: `'side'`, `'+side'`,
`'&side'` or `'+&side'`. -/
inductive Cond
  | plain (s : Side)
  | plus (s : Side)
  | amp (s : Side)
  | plusAmp (s : Side)
deriving DecidableEq, Repr

/-- A `get_symbol` mapping.  Every dict literal in the source pairs a
positive key `k` with its negation `'!' + k`; `get_symbol` picks the
lexicographically largest key — always the positive one, since `'!'` (0x21)
sorts before `'&'` (0x26), `'+'` (0x2b) and letters — evaluates its
condition, and recurses into the corresponding branch. -/
inductive SymTree
  | leaf (g : PyStr)
  | node (cond : Cond) (pos neg : SymTree)

/-- One mapping key's condition, exactly as `get_symbol` computes it.
For a `'+'`-prefixed key the test `key in ('left', 'right')` is applied to
the *stripped* key; a stripped `'&side'` still carries `'&'`, so for `'&side'`
and `'+&side'` keys that test is always false and the second
`get_visibility` call is the one taken:
`'&side'  ↦ get_visibility(row_idx, col_idx, 0, 1, side)`,
`'+&side' ↦ get_visibility(row_idx, col_idx + 1, 0, 1, side)`.
Plain `'side'` reads this cell's flag; `'+side'` reads
`self[row_idx+1].cells[col_idx]` when the side is `left`/`right` and
`self[row_idx].cells[col_idx+1]` otherwise — with no `try`, so a missing
neighbor raises `IndexError`. -/
def TextTable.evalCond (t : TextTable) (row_idx col_idx : Nat) : Cond → Except PyError Bool
  | Cond.plain s => do
      let row ← expectIdx (t.elems.get? row_idx)
      let cell ← expectIdx (row.cells.get? col_idx)
      pure (visSide cell.border_visibility s)
  | Cond.plus s =>
      if s = Side.left ∨ s = Side.right then do
        let row ← expectIdx (t.elems.get? (row_idx + 1))
        let cell ← expectIdx (row.cells.get? col_idx)
        pure (visSide cell.border_visibility s)
      else do
        let row ← expectIdx (t.elems.get? row_idx)
        let cell ← expectIdx (row.cells.get? (col_idx + 1))
        pure (visSide cell.border_visibility s)
  | Cond.amp s => t.get_visibility row_idx col_idx 0 1 s
  | Cond.plusAmp s => t.get_visibility row_idx (col_idx + 1) 0 1 s

/-- `TextTable.get_symbol` over a mapping tree. -/
def TextTable.get_symbol (t : TextTable) (row_idx col_idx : Nat) :
    SymTree → Except PyError PyStr
  | SymTree.leaf g => pure g
  | SymTree.node cond pos neg => do
      let b ← t.evalCond row_idx col_idx cond
      if b then t.get_symbol row_idx col_idx pos
      else t.get_symbol row_idx col_idx neg

/-- `TextTable.set_color`: wrap in `'\x1b[{color}m{text}\x1b[00m'` when the
color is truthy. -/
def TextTable.set_color (text : PyStr) (color : Option PyStr) : PyStr :=
  match color with
  | some col =>
      if col.isEmpty then text
      else (Char.ofNat 27 :: '[' :: col) ++ ('m' :: text)
            ++ (Char.ofNat 27 :: '[' :: '0' :: '0' :: ['m'])
  | Option.none => text

/-- `return self.set_color(symbol, color) if symbol else None` (an empty
symbol string would be falsy; all style glyphs are single characters). -/
def retSym (sym : PyStr) (color : Option PyStr) : Option PyStr :=
  if sym.isEmpty then Option.none else some (TextTable.set_color sym color)

/-- The eight logical border positions `TextTable.render` asks for. -/
inductive BSide
  | topleft | tophoriz | topright | leftvert | rightvert
  | bottomleft | bottomhoriz | bottomright
deriving DecidableEq, Repr

/-- `TextTable.get_border(side, row_idx, col_idx)`: position flags, the
per-side nested mapping (as a `SymTree`), symbol resolution, and color
resolution.  `STYLES[self.style]` is evaluated while the mapping literal is
built — before `get_symbol` runs, and only in branches that build one — so an
unknown style raises `KeyError` there.  `last_row`/`last_col` compare with
`len(...) - 1` over the integers (Python's `-1` on empty).  Returns `none`
where the source returns `None` (no glyph at this position). -/
def TextTable.get_border (t : TextTable) (side : BSide) (row_idx col_idx : Nat) :
    Except PyError (Option PyStr) := do
  let first_row := row_idx = 0
  let last_row := (row_idx : Int) = (t.elems.length : Int) - 1
  let first_col := col_idx = 0
  let last_col := (col_idx : Int) = (t.widths.length : Int) - 1
  let row ← expectIdx (t.elems.get? row_idx)
  let cell ← expectIdx (row.cells.get? col_idx)
  match side with
  | BSide.topleft =>
      if first_row ∧ first_col then do
        let sty ← expectKey (STYLES.lookup t.style)
        let sym ← t.get_symbol row_idx col_idx
          (SymTree.node (Cond.plain Side.top)
            (SymTree.node (Cond.plain Side.left)
              (SymTree.leaf (sty Role.topleft)) (SymTree.leaf (sty Role.horizontal)))
            (SymTree.node (Cond.plain Side.left)
              (SymTree.leaf (sty Role.vertical)) (SymTree.leaf (sty Role.none))))
        pure (retSym sym cell.border_color)
      else pure Option.none
  | BSide.tophoriz =>
      if first_row then do
        let sty ← expectKey (STYLES.lookup t.style)
        let sym ← t.get_symbol row_idx col_idx
          (SymTree.node (Cond.plain Side.top)
            (SymTree.leaf (sty Role.horizontal)) (SymTree.leaf (sty Role.none)))
        pure (retSym sym cell.border_color)
      else pure Option.none
  | BSide.topright =>
      if first_row ∧ last_col then do
        let sty ← expectKey (STYLES.lookup t.style)
        let sym ← t.get_symbol row_idx col_idx
          (SymTree.node (Cond.plain Side.top)
            (SymTree.node (Cond.plain Side.right)
              (SymTree.leaf (sty Role.topright)) (SymTree.leaf (sty Role.horizontal)))
            (SymTree.node (Cond.plain Side.right)
              (SymTree.leaf (sty Role.vertical)) (SymTree.leaf (sty Role.none))))
        pure (retSym sym cell.border_color)
      else if first_row then do
        let sty ← expectKey (STYLES.lookup t.style)
        let sym ← t.get_symbol row_idx col_idx
          (SymTree.node (Cond.plain Side.top)
            (SymTree.node (Cond.plus Side.top)
              (SymTree.node (Cond.amp Side.right)
                (SymTree.leaf (sty Role.topinter)) (SymTree.leaf (sty Role.horizontal)))
              (SymTree.node (Cond.amp Side.right)
                (SymTree.leaf (sty Role.topright)) (SymTree.leaf (sty Role.horizontal))))
            (SymTree.node (Cond.plus Side.top)
              (SymTree.node (Cond.amp Side.right)
                (SymTree.leaf (sty Role.topleft)) (SymTree.leaf (sty Role.horizontal)))
              (SymTree.node (Cond.amp Side.right)
                (SymTree.leaf (sty Role.vertical)) (SymTree.leaf (sty Role.none)))))
        let ncolor ← t.get_color row_idx col_idx 1 0
        pure (retSym sym (pyOr ncolor cell.border_color))
      else pure Option.none
  | BSide.leftvert =>
      if first_col then do
        let sty ← expectKey (STYLES.lookup t.style)
        let sym ← t.get_symbol row_idx col_idx
          (SymTree.node (Cond.plain Side.left)
            (SymTree.leaf (sty Role.vertical)) (SymTree.leaf (sty Role.none)))
        pure (retSym sym cell.border_color)
      else pure Option.none
  | BSide.rightvert => do
      let sty ← expectKey (STYLES.lookup t.style)
      let sym ← t.get_symbol row_idx col_idx
        (SymTree.node (Cond.amp Side.right)
          (SymTree.leaf (sty Role.vertical)) (SymTree.leaf (sty Role.none)))
      let ncolor ← t.get_color row_idx col_idx 1 0
      pure (retSym sym (pyOr ncolor cell.border_color))
  | BSide.bottomleft =>
      if last_row ∧ first_col then do
        let sty ← expectKey (STYLES.lookup t.style)
        let sym ← t.get_symbol row_idx col_idx
          (SymTree.node (Cond.plain Side.left)
            (SymTree.node (Cond.plain Side.bottom)
              (SymTree.leaf (sty Role.bottomleft)) (SymTree.leaf (sty Role.vertical)))
            (SymTree.node (Cond.plain Side.bottom)
              (SymTree.leaf (sty Role.horizontal)) (SymTree.leaf (sty Role.none))))
        pure (retSym sym cell.border_color)
      else if first_col then do
        let sty ← expectKey (STYLES.lookup t.style)
        let sym ← t.get_symbol row_idx col_idx
          (SymTree.node (Cond.plain Side.left)
            (SymTree.node (Cond.plus Side.left)
              (SymTree.node (Cond.amp Side.bottom)
                (SymTree.leaf (sty Role.leftinter)) (SymTree.leaf (sty Role.vertical)))
              (SymTree.node (Cond.amp Side.bottom)
                (SymTree.leaf (sty Role.bottomleft)) (SymTree.leaf (sty Role.none))))
            (SymTree.node (Cond.plus Side.left)
              (SymTree.node (Cond.amp Side.bottom)
                (SymTree.leaf (sty Role.topleft)) (SymTree.leaf (sty Role.none)))
              (SymTree.node (Cond.amp Side.bottom)
                (SymTree.leaf (sty Role.horizontal)) (SymTree.leaf (sty Role.none)))))
        let ncolor ← t.get_color row_idx col_idx 0 1
        pure (retSym sym (pyOr ncolor cell.border_color))
      else pure Option.none
  | BSide.bottomhoriz => do
      let sty ← expectKey (STYLES.lookup t.style)
      let sym ← t.get_symbol row_idx col_idx
        (SymTree.node (Cond.amp Side.bottom)
          (SymTree.leaf (sty Role.horizontal)) (SymTree.leaf (sty Role.none)))
      let ncolor ← t.get_color row_idx col_idx 0 1
      pure (retSym sym (pyOr ncolor cell.border_color))
  | BSide.bottomright =>
      if last_row ∧ last_col then do
        let sty ← expectKey (STYLES.lookup t.style)
        let sym ← t.get_symbol row_idx col_idx
          (SymTree.node (Cond.plain Side.right)
            (SymTree.node (Cond.plain Side.bottom)
              (SymTree.leaf (sty Role.bottomright)) (SymTree.leaf (sty Role.vertical)))
            (SymTree.node (Cond.plain Side.bottom)
              (SymTree.leaf (sty Role.horizontal)) (SymTree.leaf (sty Role.none))))
        pure (retSym sym cell.border_color)
      else if last_col then do
        let sty ← expectKey (STYLES.lookup t.style)
        let sym ← t.get_symbol row_idx col_idx
          (SymTree.node (Cond.plain Side.right)
            (SymTree.node (Cond.plus Side.right)
              (SymTree.node (Cond.amp Side.bottom)
                (SymTree.leaf (sty Role.rightinter)) (SymTree.leaf (sty Role.vertical)))
              (SymTree.node (Cond.amp Side.bottom)
                (SymTree.leaf (sty Role.bottomright)) (SymTree.leaf (sty Role.none))))
            (SymTree.node (Cond.plus Side.right)
              (SymTree.node (Cond.amp Side.bottom)
                (SymTree.leaf (sty Role.topright)) (SymTree.leaf (sty Role.none)))
              (SymTree.node (Cond.amp Side.bottom)
                (SymTree.leaf (sty Role.horizontal)) (SymTree.leaf (sty Role.none)))))
        let ncolor ← t.get_color row_idx col_idx 0 1
        pure (retSym sym (pyOr ncolor cell.border_color))
      else if last_row then do
        let sty ← expectKey (STYLES.lookup t.style)
        let sym ← t.get_symbol row_idx col_idx
          (SymTree.node (Cond.plain Side.bottom)
            (SymTree.node (Cond.amp Side.right)
              (SymTree.node (Cond.plus Side.bottom)
                (SymTree.leaf (sty Role.bottominter)) (SymTree.leaf (sty Role.bottomright)))
              (SymTree.node (Cond.plus Side.bottom)
                (SymTree.leaf (sty Role.horizontal)) (SymTree.leaf (sty Role.none))))
            (SymTree.node (Cond.amp Side.right)
              (SymTree.node (Cond.plus Side.bottom)
                (SymTree.leaf (sty Role.bottomleft)) (SymTree.leaf (sty Role.vertical)))
              (SymTree.node (Cond.plus Side.bottom)
                (SymTree.leaf (sty Role.none)) (SymTree.leaf (sty Role.none)))))
        let ncolor ← t.get_color row_idx col_idx 1 0
        pure (retSym sym (pyOr ncolor cell.border_color))
      else do
        let sty ← expectKey (STYLES.lookup t.style)
        let sym ← t.get_symbol row_idx col_idx
          (SymTree.node (Cond.amp Side.right)
            (SymTree.node (Cond.amp Side.bottom)
              (SymTree.node (Cond.plusAmp Side.right)
                (SymTree.node (Cond.plusAmp Side.bottom)
                  (SymTree.leaf (sty Role.intersection)) (SymTree.leaf (sty Role.rightinter)))
                (SymTree.node (Cond.plusAmp Side.bottom)
                  (SymTree.leaf (sty Role.bottominter)) (SymTree.leaf (sty Role.bottomright))))
              (SymTree.node (Cond.plusAmp Side.right)
                (SymTree.node (Cond.plusAmp Side.bottom)
                  (SymTree.leaf (sty Role.leftinter)) (SymTree.leaf (sty Role.vertical)))
                (SymTree.node (Cond.plusAmp Side.bottom)
                  (SymTree.leaf (sty Role.bottomleft)) (SymTree.leaf (sty Role.none)))))
            (SymTree.node (Cond.amp Side.bottom)
              (SymTree.node (Cond.plusAmp Side.right)
                (SymTree.node (Cond.plusAmp Side.bottom)
                  (SymTree.leaf (sty Role.topinter)) (SymTree.leaf (sty Role.topright)))
                (SymTree.node (Cond.plusAmp Side.bottom)
                  (SymTree.leaf (sty Role.horizontal)) (SymTree.leaf (sty Role.none))))
              (SymTree.node (Cond.plusAmp Side.right)
                (SymTree.node (Cond.plusAmp Side.bottom)
                  (SymTree.leaf (sty Role.topleft)) (SymTree.leaf (sty Role.none)))
                (SymTree.node (Cond.plusAmp Side.bottom)
                  (SymTree.leaf (sty Role.horizontal)) (SymTree.leaf (sty Role.none))))))
        let c11 ← t.get_color row_idx col_idx 1 1
        let c01 ← t.get_color row_idx col_idx 0 1
        let c10 ← t.get_color row_idx col_idx 1 0
        pure (retSym sym (pyOr c11 (pyOr c01 (pyOr c10 cell.border_color))))

/-! ## The renderer -/

/-- `l[idx] = f(l[idx])` on a list, no-op out of range (used only in range). -/
def listModify {α : Type _} (l : List α) (idx : Nat) (f : α → α) : List α :=
  match l.get? idx with
  | some a => l.set idx (f a)
  | Option.none => l

/-- `lines.setdefault(row_idx, [])` inside `render`'s `add`: make `idx`
valid, appending empty rows.  (Python's `setdefault` would fill a *gap* with
the bare string `'?'`; `render` writes its line indices densely — each index
is at most the current length — so the gap filler is unreachable there and is
modeled as a `["?"]` row.) -/
def bufEnsure (lines : List (List PyStr)) (idx : Nat) : List (List PyStr) :=
  if idx < lines.length then lines
  else lines ++ List.replicate (idx - lines.length) [['?']] ++ [[]]

/-- `add(row_idx, value, n=1)`: ensure the row exists, then extend it with
`n` copies of `value` when `value` is truthy (`None` and `''` are skipped). -/
def bufAdd (lines : List (List PyStr)) (idx : Nat) (value : Option PyStr) (n : Nat) :
    List (List PyStr) :=
  let lines := bufEnsure lines idx
  match value with
  | Option.none => lines
  | some s => if s.isEmpty then lines else listModify lines idx (· ++ List.replicate n s)

/-- The heights pass of `get_row_height`: split every cell's text at its
column's width (a missing width is an `IndexError`). -/
def heightsOf (widths : List Int) : List Cell → Nat → Except PyError (List Nat)
  | [], _ => pure []
  | cell :: cells, col_idx => do
      let w ← expectIdx (widths.get? col_idx)
      let rest ← heightsOf widths cells (col_idx + 1)
      pure ((cell.split_text w).length :: rest)

/-- `get_row_height`: `max(heights)`; `max([])` on a zero-cell row raises
`ValueError`. -/
def rowHeight (widths : List Int) (row : Row) : Except PyError Nat := do
  let hs ← heightsOf widths row.cells 0
  match hs with
  | [] => Except.error PyError.valueError
  | h :: rest => pure (rest.foldl max h)

/-- The `for _ in range(1, height + 1)` text loop of `render` for one cell:
left border, then the text line (or a `width`-run of blank segments when this
cell has fewer lines than the row, the `except IndexError` arm), then the
right border.  `count` counts the remaining iterations, `k` is the running
`_`. -/
def renderTextRows (t : TextTable) (row_idx col_idx : Nat) (cell : Cell)
    (textLines : List PyStr) (w : Int) (base : Nat) :
    Nat → Nat → List (List PyStr) → Except PyError (List (List PyStr))
  | 0, _, lines => pure lines
  | count+1, k, lines => do
      let idx := base + k
      let lv ← t.get_border BSide.leftvert row_idx col_idx
      let lines := bufAdd lines idx lv 1
      let lines :=
        match textLines.get? (k - 1) with
        | some s => bufAdd lines idx (some (TextTable.set_color s cell.text_color)) 1
        | Option.none =>
            bufAdd lines idx (some (TextTable.set_color [' '] cell.text_color)) w.toNat
      let rv ← t.get_border BSide.rightvert row_idx col_idx
      let lines := bufAdd lines idx rv 1
      renderTextRows t row_idx col_idx cell textLines w base count (k+1) lines

/-- One cell of the `for col_idx, cell in enumerate(row.cells)` loop: top
border segments at `base`, `height` text lines, bottom border segments at
`base + height + 1`.  The column width was already read (and the cell's text
already split) by `get_row_height`, so reading it up front is equivalent. -/
def renderCell (t : TextTable) (row_idx col_idx : Nat) (cell : Cell) (height : Nat)
    (base : Nat) (lines : List (List PyStr)) : Except PyError (List (List PyStr)) := do
  let w ← expectIdx (t.widths.get? col_idx)
  let textLines := cell.split_text w
  let tl ← t.get_border BSide.topleft row_idx col_idx
  let lines := bufAdd lines base tl 1
  let th ← t.get_border BSide.tophoriz row_idx col_idx
  let lines := bufAdd lines base th w.toNat
  let tr ← t.get_border BSide.topright row_idx col_idx
  let lines := bufAdd lines base tr 1
  let lines ← renderTextRows t row_idx col_idx cell textLines w base height 1 lines
  let bidx := base + height + 1
  let bl ← t.get_border BSide.bottomleft row_idx col_idx
  let lines := bufAdd lines bidx bl 1
  let bh ← t.get_border BSide.bottomhoriz row_idx col_idx
  let lines := bufAdd lines bidx bh w.toNat
  let br ← t.get_border BSide.bottomright row_idx col_idx
  let lines := bufAdd lines bidx br 1
  pure lines

/-- The cell loop of one row. -/
def renderCells (t : TextTable) (row_idx height base : Nat) :
    List Cell → Nat → List (List PyStr) → Except PyError (List (List PyStr))
  | [], _, lines => pure lines
  | cell :: cells, col_idx, lines => do
      let lines ← renderCell t row_idx col_idx cell height base lines
      renderCells t row_idx height base cells (col_idx + 1) lines

/-- The row loop of `render`: compute the row height (splitting all its
cells), draw the row, and advance `text_row_idx` by `height + 1` (so each
row's bottom border line is the next row's — glyphless — top line). -/
def renderRows (t : TextTable) : List Row → Nat → Nat → List (List PyStr) →
    Except PyError (List (List PyStr))
  | [], _, _, lines => pure lines
  | row :: rows, row_idx, base, lines => do
      let height ← rowHeight t.widths row
      let lines ← renderCells t row_idx height base row.cells 0 lines
      renderRows t rows (row_idx + 1) (base + height + 1) lines

/-- The title overlay: `lines[0][idx + 1] = char` for each title character;
a missing `lines[0]` or segment raises `IndexError` (list assignment does not
extend). -/
def overlayTitle (lines : List (List PyStr)) :
    List (Nat × Char) → Except PyError (List (List PyStr))
  | [] => pure lines
  | (idx, ch) :: rest => do
      let row ← expectIdx (lines.get? 0)
      let _ ← expectIdx (row.get? (idx + 1))
      overlayTitle (lines.set 0 (row.set (idx + 1) [ch])) rest

/-- `TextTable.render`, with the terminal width injected for the allocator.
Widths are allocated when `self.widths` is empty (after `__init__` it always
is), the rows are drawn, and the title — when truthy — is overlaid on line 0
starting at segment 1. -/
def TextTable.render (t : TextTable) (term_width : Int) :
    Except PyError (List (List PyStr)) := do
  let t := if t.widths.isEmpty
           then { t with widths := (get_columns_widths t.elems term_width).1 }
           else t
  let lines ← renderRows t t.elems 0 0 []
  match t.title with
  | some title => if title.isEmpty then pure lines else overlayTitle lines title.enum
  | Option.none => pure lines

/-- `Table.flush`: render, join the line buffer into the output payload
(`'\n'.join(''.join(line) for line in ...)`), and execute `self.rows = []` —
an *attribute* assignment on the `list` subclass which does not touch the
list contents that `render` iterates. -/
def TextTable.flush (t : TextTable) (term_width : Int) :
    Except PyError (PyStr × TextTable) := do
  let lines ← t.render term_width
  pure (List.intercalate ['\n'] (lines.map List.flatten),
        { t with rows_attr := some [] })

/-! ## Concrete tables used as test inputs -/

/-- A default cell with text `'x'`. -/
def exCellX : Cell := mkCell ["x".toList]

/-- A default cell with all four borders hidden. -/
def exCellHidden : Cell :=
  { exCellX with border_visibility := ⟨false, false, false, false⟩ }

/-- A one-row, one-cell classic table (text `'ab'`). -/
def exTable1x1 : TextTable :=
  { TextTable.init [] Option.none "classic" with elems := [Row.mk [mkCell ["ab".toList]]] }

/-- A 2×2 modern table, all cells with all borders visible, widths `[3, 3]`
(the widths `render` allocates for it at terminal width 80). -/
def exTable2x2AllVisible : TextTable :=
  { TextTable.init [] Option.none "modern" with
    elems := [Row.mk [exCellX, exCellX], Row.mk [exCellX, exCellX]],
    widths := [3, 3] }

/-- A 2×2 modern table whose top two cells have all borders visible and whose
bottom two cells have all borders hidden, widths `[3, 3]`. -/
def exTable2x2TopOnly : TextTable :=
  { TextTable.init [] Option.none "modern" with
    elems := [Row.mk [exCellX, exCellX], Row.mk [exCellHidden, exCellHidden]],
    widths := [3, 3] }

/-- The same 2×2 all-visible grid in the classic style. -/
def exTable2x2AllVisibleClassic : TextTable :=
  { TextTable.init [] Option.none "classic" with
    elems := [Row.mk [exCellX, exCellX], Row.mk [exCellX, exCellX]],
    widths := [3, 3] }

/-- A table constructed with an unknown style name. -/
def exTableBogus : TextTable :=
  { TextTable.init [] Option.none "bogus" with elems := [Row.mk [exCellX]] }

/-- A 2-column table whose second (last) row has only one cell. -/
def exTableMismatch : TextTable :=
  { TextTable.init [] Option.none "classic" with
    elems := [Row.mk [exCellX, exCellX], Row.mk [exCellX]] }

/-- A table with zero rows. -/
def exTableEmpty : TextTable := TextTable.init [] Option.none "classic"

/-- A table containing one row with zero cells. -/
def exTableZeroCellRow : TextTable :=
  { TextTable.init [] Option.none "classic" with elems := [Row.mk []] }

/-- A table whose only cell has empty text. -/
def exTableEmptyText : TextTable :=
  { TextTable.init [] Option.none "classic" with elems := [Row.mk [mkCell [[]]]] }

/-- The one-row, one-cell classic-style table over a given cell, with a
single already-allocated column width (the post-allocation state of the
table C1 renders). -/
def classicTable1x1 (c : Cell) (w0 : Int) : TextTable :=
  { elems := [Row.mk [c]], widths := [w0], title := Option.none,
    style := "classic", rows_attr := Option.none }

/-! ## Lemmas about the text wrapper -/

theorem pyFormatPad_length (v : PyStr) (a : Halign) (w : Int) :
    (pyFormatPad v a w).length = max w.toNat v.length := by
  unfold pyFormatPad
  cases a <;> simp <;> omega

theorem Cell.format_length (c : Cell) (v : PyStr) (w : Int) :
    (c.format v w).length
      = max (w + c.padding_left + c.padding_right).toNat
          (c.padding_left + v.length + c.padding_right) := by
  unfold Cell.format
  rw [pyFormatPad_length]
  simp
  omega

theorem Cell.splitWords_eq_raw (c : Cell) (width : Int) :
    ∀ (words : List PyStr) (cur : PyStr),
      c.splitWords width words cur
        = (c.splitWordsRaw width words cur).map (fun s => c.format s width) := by
  intro words
  induction words with
  | nil =>
      intro cur
      simp only [Cell.splitWords, Cell.splitWordsRaw]
      split <;> simp
  | cons word words ih =>
      intro cur
      simp only [Cell.splitWords, Cell.splitWordsRaw]
      split_ifs <;> simp [ih]

theorem Cell.split_textLines_eq_raw (c : Cell) (width : Int) :
    ∀ text : List PyStr,
      c.split_textLines width text
        = (c.split_textLinesRaw width text).map (fun s => c.format s width) := by
  intro text
  induction text with
  | nil => rfl
  | cons line rest ih =>
      simp only [Cell.split_textLines, Cell.split_textLinesRaw]
      split_ifs <;> simp [ih, Cell.splitWords_eq_raw]

theorem Cell.split_text_eq_raw (c : Cell) (width : Int) :
    c.split_text width
      = (c.split_textRaw width).map
          (fun s => c.format s (width - c.padding_left - c.padding_right)) := by
  unfold Cell.split_text Cell.split_textRaw
  exact c.split_textLines_eq_raw _ _

theorem pySplitSp_no_space :
    ∀ w : PyStr, w ≠ [] → ' ' ∉ w → pySplitSp w = [w]
  | [], hw, _ => absurd rfl hw
  | ch :: rest, _, hns => by
      have hch : ¬ (ch = ' ') := fun h => hns (h ▸ List.mem_cons_self ch rest)
      by_cases hr : rest = []
      · subst hr; simp [pySplitSp, hch]
      · have hrec := pySplitSp_no_space rest hr (fun h => hns (List.mem_cons_of_mem _ h))
        simp [pySplitSp, hch, hrec]

/-- Recurrence of the chunk-count ceiling: peeling `d` characters off a
non-empty word adds one chunk. -/
theorem chunkCount_rec (L d : Nat) (hL : 1 ≤ L) (hd : 1 ≤ d) :
    (L + d - 1) / d = ((L - d) + d - 1) / d + 1 := by
  by_cases hcase : L ≤ d
  · have h1 : (L - d) + d - 1 = d - 1 := by omega
    have h2 : (d - 1) / d = 0 := Nat.div_eq_of_lt (by omega)
    have hlb : 1 * d ≤ L + d - 1 := by omega
    have h3 : (L + d - 1) / d = 1 := Nat.div_eq_of_lt_le hlb (by omega)
    rw [h1, h2, h3]
  · rw [show L + d - 1 = ((L - d) + d - 1) + d by omega, Nat.add_div_right _ (by omega)]

/-- Chunk count of the continuation phase of `split_word`: the loop removes
`width - indent` characters per iteration, so it emits
`ceil(remaining / (width - indent))` chunks. -/
theorem Cell.split_wordGo_false_length (indent : Nat) (width : Int)
    (hiw : (indent : Int) < width) :
    ∀ (fuel : Nat) (word : PyStr), word.length ≤ fuel →
      (Cell.split_wordGo indent width fuel word false).length
        = (word.length + (width - indent).toNat - 1) / (width - indent).toNat := by
  intro fuel
  induction fuel with
  | zero =>
      intro word hw
      have hnil : word = [] := by
        cases word with
        | nil => rfl
        | cons a b => simp at hw
      subst hnil
      simp only [Cell.split_wordGo, List.length_nil, Nat.zero_add]
      exact (Nat.div_eq_of_lt (by omega)).symm
  | succ fuel ih =>
      intro word hw
      cases word with
      | nil =>
          simp only [Cell.split_wordGo, List.length_nil, Nat.zero_add]
          exact (Nat.div_eq_of_lt (by omega)).symm
      | cons ch rest =>
          have hd : (0 : Int) ≤ width - indent := by omega
          simp only [List.length_cons] at hw
          simp only [Cell.split_wordGo, if_neg (Bool.false_ne_true), List.length_cons]
          rw [pyDrop, if_pos hd]
          rw [ih _ (by rw [List.length_drop]; simp only [List.length_cons]; omega)]
          rw [List.length_drop]
          simp only [List.length_cons]
          exact (chunkCount_rec (rest.length + 1) ((width - (indent : Int)).toNat)
            (by omega) (by omega)).symm

/-- Continuation chunks of `split_word` are the indent followed by at most
`width - indent` characters. -/
theorem Cell.split_wordGo_false_chunks (indent : Nat) (width : Int)
    (hiw : (indent : Int) < width) :
    ∀ (fuel : Nat) (word : PyStr) (s : PyStr),
      s ∈ Cell.split_wordGo indent width fuel word false →
      ∃ rest, s = List.replicate indent ' ' ++ rest
        ∧ rest.length ≤ (width - indent).toNat := by
  intro fuel
  induction fuel with
  | zero =>
      intro word s hs
      match word with
      | [] => simp [Cell.split_wordGo] at hs
      | _ :: _ => simp [Cell.split_wordGo] at hs
  | succ fuel ih =>
      intro word s hs
      match word with
      | [] => simp [Cell.split_wordGo] at hs
      | ch :: rest =>
          have hd : (0 : Int) ≤ width - indent := by omega
          simp only [Cell.split_wordGo, if_neg (Bool.false_ne_true), List.mem_cons] at hs
          rcases hs with h | h
          · refine ⟨pyTake (ch :: rest) (width - indent), h, ?_⟩
            rw [pyTake, if_pos hd]
            simp
          · exact ih _ _ h

theorem Cell.split_word_eq (c : Cell) (word : PyStr) (width : Int)
    (hw : 0 < width) (hL : (word.length : Int) > width) :
    c.split_word word width
      = pyTake word width
        :: Cell.split_wordGo c.newline_indent width word.length (pyDrop word width) false := by
  unfold Cell.split_word
  cases word with
  | nil => simp at hL; omega
  | cons ch rest => simp [Cell.split_wordGo]

theorem Cell.split_word_length (c : Cell) (word : PyStr) (width : Int)
    (hiw : (c.newline_indent : Int) < width) (hL : (word.length : Int) > width) :
    (c.split_word word width).length
      = 1 + (word.length - width.toNat + (width - c.newline_indent).toNat - 1)
            / (width - c.newline_indent).toNat := by
  rw [Cell.split_word_eq c word width (by omega) hL]
  simp only [List.length_cons]
  rw [Cell.split_wordGo_false_length c.newline_indent width hiw word.length (pyDrop word width)
    (by rw [pyDrop, if_pos (by omega : (0:Int) ≤ width)]; simp)]
  rw [pyDrop, if_pos (by omega : (0:Int) ≤ width)]
  rw [List.length_drop]
  omega

theorem Cell.split_word_chunks (c : Cell) (word : PyStr) (width : Int)
    (hiw : (c.newline_indent : Int) < width) (hL : (word.length : Int) > width) :
    (∀ s ∈ c.split_word word width, s.length ≤ width.toNat)
    ∧ ∀ s ∈ (c.split_word word width).tail,
        ∃ rest, s = List.replicate c.newline_indent ' ' ++ rest
          ∧ rest.length ≤ (width - c.newline_indent).toNat := by
  rw [Cell.split_word_eq c word width (by omega) hL]
  constructor
  · intro s hs
    rcases List.mem_cons.mp hs with h | h
    · subst h
      rw [pyTake, if_pos (by omega : (0:Int) ≤ width)]
      simp
    · obtain ⟨rest, hrest, hlen⟩ :=
        Cell.split_wordGo_false_chunks c.newline_indent width hiw _ _ _ h
      subst hrest
      simp only [List.length_append, List.length_replicate]
      omega
  · intro s hs
    simp only [List.tail_cons] at hs
    exact Cell.split_wordGo_false_chunks c.newline_indent width hiw _ _ _ hs

/-- On a single-word cell (no spaces, no top/bottom padding) whose word
exceeds the effective wrap width, `split_text` is exactly the formatted
hard-split of the word. -/
theorem Cell.split_text_single_word (c : Cell) (word : PyStr) (w : Int)
    (htext : c.text = [word]) (hns : ' ' ∉ word)
    (hpt : c.padding_top = 0) (hpb : c.padding_bottom = 0)
    (hL : (word.length : Int) > w - c.padding_left - c.padding_right)
    (hiw : (c.newline_indent : Int) < w - c.padding_left - c.padding_right) :
    c.split_text w
      = (c.split_word word (w - c.padding_left - c.padding_right)).map
          (fun s => c.format s (w - c.padding_left - c.padding_right)) := by
  have hwordne : word ≠ [] := by
    intro h
    subst h
    simp at hL
    omega
  unfold Cell.split_text
  rw [htext, hpt, hpb]
  simp only [List.replicate_zero, List.nil_append, List.append_nil]
  simp only [Cell.split_textLines,
    if_neg (by omega : ¬ ((word.length : Int) ≤ w - c.padding_left - c.padding_right)),
    List.append_nil]
  rw [pySplitSp_no_space word hwordne hns]
  simp only [Cell.splitWords, if_neg hwordne]
  simp [at_start, if_pos hL, hL]

/-! ## Lemmas about the allocator -/

theorem seedWidths_spec (cols : List ColumnWidths) :
    ∀ r : Int,
      (seedWidths cols r).2.2 + ((seedWidths cols r).1).sum = r
      ∧ (seedWidths cols r).1.length = cols.length
      ∧ (seedWidths cols r).2.1.length = cols.length := by
  induction cols with
  | nil => intro r; simp [seedWidths]
  | cons col cols ih =>
      intro r
      obtain ⟨h1, h2, h3⟩ := ih (r - (seedOf col).1)
      simp only [seedWidths, List.sum_cons, List.length_cons]
      exact ⟨by omega, by omega, by omega⟩

theorem growPass_spec (cols : List ColumnWidths) :
    ∀ (ws : List Int) (sts : List Bool) (r : Int),
      (growPass cols ws sts r).2.2 + ((growPass cols ws sts r).1).sum = r + ws.sum
      ∧ (growPass cols ws sts r).1.length = ws.length
      ∧ (0 < r → 0 ≤ (growPass cols ws sts r).2.2) := by
  induction cols with
  | nil =>
      intro ws sts r
      simp [growPass]
      omega
  | cons col cols ih =>
      intro ws sts r
      cases ws with
      | nil => simp [growPass]; omega
      | cons w ws =>
          cases sts with
          | nil => simp [growPass]; omega
          | cons st sts =>
              by_cases hst : st = true
              · simp only [growPass, if_pos hst]
                obtain ⟨g1, g2, g3⟩ := ih ws sts r
                simp only [List.sum_cons, List.length_cons]
                exact ⟨by omega, by omega, g3⟩
              · simp only [growPass, if_neg hst]
                by_cases hlt : w < (if col.max_width ≠ -1 then col.max_width else col.text_width)
                · simp only [if_pos hlt]
                  by_cases hbrk : r - 1 ≤ 0
                  · simp only [if_pos hbrk]
                    simp only [List.sum_cons, List.length_cons]
                    exact ⟨by omega, trivial, by omega⟩
                  · simp only [if_neg hbrk]
                    obtain ⟨g1, g2, g3⟩ := ih ws sts (r - 1)
                    simp only [List.sum_cons, List.length_cons]
                    refine ⟨by omega, by omega, fun _ => by
                      have := g3 (by omega)
                      omega⟩
                · simp only [if_neg hlt]
                  obtain ⟨g1, g2, g3⟩ := ih ws sts r
                  simp only [List.sum_cons, List.length_cons]
                  exact ⟨by omega, by omega, g3⟩

theorem growLoop_spec (cols : List ColumnWidths) :
    ∀ (fuel : Nat) (ws : List Int) (sts : List Bool) (r : Int),
      (growLoop cols fuel ws sts r).2.2 + ((growLoop cols fuel ws sts r).1).sum = r + ws.sum
      ∧ (growLoop cols fuel ws sts r).1.length = ws.length
      ∧ (0 ≤ r → 0 ≤ (growLoop cols fuel ws sts r).2.2) := by
  intro fuel
  induction fuel with
  | zero => intro ws sts r; simp [growLoop]
  | succ fuel ih =>
      intro ws sts r
      simp only [growLoop]
      split_ifs with h1
      · simp
      · obtain ⟨p1, p2, p3⟩ := growPass_spec cols ws sts r
        obtain ⟨l1, l2, l3⟩ :=
          ih (growPass cols ws sts r).1 (growPass cols ws sts r).2.1 (growPass cols ws sts r).2.2
        refine ⟨by omega, by omega, fun hr => ?_⟩
        have hrpos : 0 < r := by
          rcases not_or.mp h1 with ⟨hh, _⟩
          omega
        exact l3 (p3 hrpos)

theorem growLoop_neg (cols : List ColumnWidths) (fuel : Nat) (ws : List Int)
    (sts : List Bool) (r : Int) (hr : r < 0) :
    growLoop cols fuel ws sts r = (ws, sts, r) := by
  cases fuel with
  | zero => rfl
  | succ fuel => simp only [growLoop]; rw [if_pos (Or.inl (by omega))]

theorem get_columns_widths_length (rows : List Row) (T : Int) :
    (get_columns_widths rows T).1.length = (aggregateColumns rows).length := by
  unfold get_columns_widths
  obtain ⟨_, s2, _⟩ :=
    seedWidths_spec (aggregateColumns rows) (T - (aggregateColumns rows).length - 1)
  obtain ⟨_, l2, _⟩ := growLoop_spec (aggregateColumns rows)
    ((seedWidths (aggregateColumns rows) (T - (aggregateColumns rows).length - 1)).2.2.toNat + 1)
    (seedWidths (aggregateColumns rows) (T - (aggregateColumns rows).length - 1)).1
    (seedWidths (aggregateColumns rows) (T - (aggregateColumns rows).length - 1)).2.1
    (seedWidths (aggregateColumns rows) (T - (aggregateColumns rows).length - 1)).2.2
  simp only []
  omega

theorem aggCells_length :
    ∀ (cells : List Cell) (cols : List ColumnWidths),
      (aggCells cols cells).length = max cols.length cells.length
  | [], cols => by simp [aggCells]
  | cell :: cells, [] => by
      simp [aggCells, aggCells_length cells []]
  | cell :: cells, col :: cols => by
      simp [aggCells, aggCells_length cells cols]
      omega

theorem aggregateColumns_ge (rows : List Row) :
    ∀ row ∈ rows, row.cells.length ≤ (aggregateColumns rows).length := by
  suffices h : ∀ (cols : List ColumnWidths),
      (∀ row ∈ rows, row.cells.length ≤ (rows.foldl (fun cs rw => aggCells cs rw.cells) cols).length)
      ∧ cols.length ≤ (rows.foldl (fun cs rw => aggCells cs rw.cells) cols).length by
    exact (h []).1
  induction rows with
  | nil => intro cols; simp
  | cons row rows ih =>
      intro cols
      constructor
      · intro r hr
        rcases List.mem_cons.mp hr with h | h
        · subst h
          simp only [List.foldl_cons]
          have := (ih (aggCells cols r.cells)).2
          rw [aggCells_length] at this
          omega
        · exact (ih (aggCells cols row.cells)).1 r h
      · simp only [List.foldl_cons]
        have := (ih (aggCells cols row.cells)).2
        rw [aggCells_length] at this
        omega

/-! ## Claim theorems -/

/-- **C5.** For every table (the source always allocates: `__init__` drops
explicit widths) and every injected terminal width: the final
`remaining_size` — whose negativity is the source's overflow-warning
condition — is negative exactly when `remaining_size` is negative immediately
after seeding; the growth loop never drives it below zero
(`min(seed, 0) ≤ final`); and unless the warning fires, the allocation
satisfies `sum(widths) + num_columns + 1 ≤ terminal_width`. -/
theorem C5_allocation_budget_and_overflow_warning (rows : List Row) (T : Int) :
    ((get_columns_widths rows T).2 < 0 ↔ seedRemaining rows T < 0)
    ∧ min (seedRemaining rows T) 0 ≤ (get_columns_widths rows T).2
    ∧ ((get_columns_widths rows T).1.sum
         + ((get_columns_widths rows T).1.length : Int) + 1 ≤ T
        ∨ (get_columns_widths rows T).2 < 0) := by
  have hseedr : seedRemaining rows T
      = (seedWidths (aggregateColumns rows)
          (T - (aggregateColumns rows).length - 1)).2.2 := rfl
  obtain ⟨s1, s2, s3⟩ :=
    seedWidths_spec (aggregateColumns rows) (T - (aggregateColumns rows).length - 1)
  by_cases hneg :
      (seedWidths (aggregateColumns rows) (T - (aggregateColumns rows).length - 1)).2.2 < 0
  · have hgc : get_columns_widths rows T
        = ((seedWidths (aggregateColumns rows) (T - (aggregateColumns rows).length - 1)).1,
           (seedWidths (aggregateColumns rows) (T - (aggregateColumns rows).length - 1)).2.2) := by
      simp only [get_columns_widths]
      rw [growLoop_neg _ _ _ _ _ hneg]
    rw [hgc, hseedr]
    exact ⟨Iff.rfl, by omega, Or.inr hneg⟩
  · obtain ⟨l1, l2, l3⟩ := growLoop_spec (aggregateColumns rows)
      ((seedWidths (aggregateColumns rows) (T - (aggregateColumns rows).length - 1)).2.2.toNat + 1)
      (seedWidths (aggregateColumns rows) (T - (aggregateColumns rows).length - 1)).1
      (seedWidths (aggregateColumns rows) (T - (aggregateColumns rows).length - 1)).2.1
      (seedWidths (aggregateColumns rows) (T - (aggregateColumns rows).length - 1)).2.2
    have hfin := l3 (by omega)
    have hgc1 : (get_columns_widths rows T).1
        = (growLoop (aggregateColumns rows)
            ((seedWidths (aggregateColumns rows)
              (T - (aggregateColumns rows).length - 1)).2.2.toNat + 1)
            (seedWidths (aggregateColumns rows) (T - (aggregateColumns rows).length - 1)).1
            (seedWidths (aggregateColumns rows) (T - (aggregateColumns rows).length - 1)).2.1
            (seedWidths (aggregateColumns rows) (T - (aggregateColumns rows).length - 1)).2.2).1 :=
      rfl
    have hgc2 : (get_columns_widths rows T).2
        = (growLoop (aggregateColumns rows)
            ((seedWidths (aggregateColumns rows)
              (T - (aggregateColumns rows).length - 1)).2.2.toNat + 1)
            (seedWidths (aggregateColumns rows) (T - (aggregateColumns rows).length - 1)).1
            (seedWidths (aggregateColumns rows) (T - (aggregateColumns rows).length - 1)).2.1
            (seedWidths (aggregateColumns rows) (T - (aggregateColumns rows).length - 1)).2.2).2.2 :=
      rfl
    rw [hgc1, hgc2, hseedr]
    refine ⟨by omega, by omega, Or.inl ?_⟩
    omega

/-- **C10.** `Buffer.set(i, v)` with the default fill `'?'` stores the first
truthy of `(v, existing element, '?')`; at or past the end the buffer grows
to length `i + 1`, every gap is filled with `'?'`, and position `i` receives
`v` when truthy and `'?'` otherwise; all other positions are untouched. -/
theorem C10_buffer_set_first_truthy (buf : List (Option PyStr)) (index : Nat)
    (value : Option PyStr) :
    (Buffer.set buf index value (some ['?'])).length = max buf.length (index + 1)
    ∧ ∀ j : Nat,
        (Buffer.set buf index value (some ['?'])).get? j
          = if j = index
            then some (firstTruthy [value, (buf.get? index).join, some ['?']])
            else if j < buf.length then buf.get? j
            else if j < index then some (some ['?'])
            else Option.none := by
  have hq : pyTruthy (some ['?']) = true := rfl
  unfold Buffer.set
  cases h : buf.get? index with
  | none =>
      have hlen : buf.length ≤ index := List.get?_eq_none.mp h
      constructor
      · simp only [List.length_append, List.length_replicate, List.length_cons,
          List.length_nil]
        omega
      · intro j
        rcases Nat.lt_trichotomy j index with hj | hj | hj
        · by_cases hjb : j < buf.length
          · rw [List.append_assoc, List.get?_append hjb,
              if_neg (by omega), if_pos hjb]
          · rw [List.append_assoc,
              List.get?_append_right (by omega : buf.length ≤ j)]
            rw [List.get?_append
              (by simp only [List.length_replicate]; omega :
                j - buf.length < (List.replicate (index - buf.length) (some (['?'] : PyStr))).length)]
            rw [List.get?_eq_getElem?, List.getElem?_replicate,
              if_pos (by omega : j - buf.length < index - buf.length)]
            rw [if_neg (by omega), if_neg (by omega), if_pos hj]
        · subst hj
          rw [List.append_assoc,
            List.get?_append_right (by omega : buf.length ≤ j),
            List.get?_append_right
              (by simp only [List.length_replicate]; omega),
            if_pos rfl]
          simp only [List.length_replicate]
          rw [show j - buf.length - (j - buf.length) = 0 by omega]
          simp only [List.get?]
          cases hv : pyTruthy value <;>
            simp [pyOr, firstTruthy, List.find?, hv, Option.join, hq,
              show pyTruthy Option.none = false from rfl]
        · rw [List.get?_eq_none.mpr
            (by simp only [List.length_append, List.length_replicate,
              List.length_cons, List.length_nil]; omega)]
          rw [if_neg (by omega), if_neg (by omega), if_neg (by omega)]
  | some existing =>
      have hlt : index < buf.length := by
        rcases List.get?_eq_some.mp h with ⟨hl, _⟩
        exact hl
      constructor
      · simp only [List.length_set]
        omega
      · intro j
        by_cases hj : j = index
        · subst hj
          rw [List.get?_set_eq_of_lt _ hlt, if_pos rfl]
          cases hv : pyTruthy value <;> cases hve : pyTruthy existing <;>
            simp [pyOr, firstTruthy, List.find?, hv, hve, Option.join, hq]
        · rw [List.get?_set_ne _ _ (fun hc => hj hc.symm), if_neg hj]
          by_cases hjb : j < buf.length
          · rw [if_pos hjb]
          · rw [if_neg hjb, if_neg (by omega),
              List.get?_eq_none.mpr (by omega)]

/-- **C3.** For every cell and target column width `w` with positive
effective wrap width (`w` minus left/right padding) at least the length of
every unsplittable chunk produced by the splitting pipeline, every string in
`split_text w`'s result has length exactly `w`, for every alignment mode
(the cell's `halign` is universally quantified with the cell). -/
theorem C3_split_text_exact_width (c : Cell) (w : Int)
    (hw : 0 < w - c.padding_left - c.padding_right)
    (hchunks : ∀ s ∈ c.split_textRaw w,
      (s.length : Int) ≤ w - c.padding_left - c.padding_right) :
    ∀ out ∈ c.split_text w, (out.length : Int) = w := by
  intro out hout
  rw [Cell.split_text_eq_raw] at hout
  obtain ⟨s, hs, rfl⟩ := List.mem_map.mp hout
  have hb := hchunks s hs
  rw [Cell.format_length]
  omega

/-- Witness for C3: the default cell (`halign='left'`) with text `'abcd'`
at column width 4 (effective wrap width 2, chunks `'ab'`, `' c'`, `' d'`). -/
theorem C3_split_text_exact_width_witness :
    (0 < (4 : Int) - (mkCell ["abcd".toList]).padding_left
        - (mkCell ["abcd".toList]).padding_right)
    ∧ ∀ out ∈ (mkCell ["abcd".toList]).split_text 4, (out.length : Int) = 4 :=
  ⟨by decide, C3_split_text_exact_width (mkCell ["abcd".toList]) 4 (by decide) (by decide)⟩

/-- **C4, counterexample.**  A default cell (`padding_left = padding_right =
newline_indent = 1`) holding the single 10-character word `'aaaaaaaaaa'` at
column width 7 has effective wrap width 5; the claim demands
`ceil(10 / 5) = 2` lines, but `split_text` produces 3 (the continuation
chunks only carry `5 - newline_indent = 4` characters). -/
theorem C4_counterexample_chunk_count :
    ((mkCell ["aaaaaaaaaa".toList]).split_text 7).length = 3
    ∧ (10 + 5 - 1) / 5 = 2
    ∧ (3 : Nat) ≠ 2 := by
  refine ⟨?_, by decide, by decide⟩
  decide

/-- **C4, amended.** For a single-word cell (no spaces, no vertical padding)
whose word length `L` exceeds the effective wrap width `weff = w -
padding_left - padding_right`, with `newline_indent < weff`: `split_text`
returns exactly the formatted hard-split of the word, producing
`1 + ceil((L - weff) / (weff - newline_indent))` lines (not `ceil(L/weff)`);
every chunk is at most `weff` characters, and every continuation chunk is the
indent followed by at most `weff - newline_indent` characters. -/
theorem C4_overlong_word_hard_split (c : Cell) (word : PyStr) (w : Int)
    (htext : c.text = [word]) (hns : ' ' ∉ word)
    (hpt : c.padding_top = 0) (hpb : c.padding_bottom = 0)
    (hL : (word.length : Int) > w - c.padding_left - c.padding_right)
    (hiw : (c.newline_indent : Int) < w - c.padding_left - c.padding_right) :
    c.split_text w
      = (c.split_word word (w - c.padding_left - c.padding_right)).map
          (fun s => c.format s (w - c.padding_left - c.padding_right))
    ∧ (c.split_text w).length
      = 1 + (word.length - (w - c.padding_left - c.padding_right).toNat
             + (w - c.padding_left - c.padding_right - c.newline_indent).toNat - 1)
            / (w - c.padding_left - c.padding_right - c.newline_indent).toNat
    ∧ (∀ s ∈ c.split_word word (w - c.padding_left - c.padding_right),
         s.length ≤ (w - c.padding_left - c.padding_right).toNat)
    ∧ ∀ s ∈ (c.split_word word (w - c.padding_left - c.padding_right)).tail,
        ∃ rest, s = List.replicate c.newline_indent ' ' ++ rest
          ∧ rest.length ≤ (w - c.padding_left - c.padding_right - c.newline_indent).toNat := by
  have hmap := Cell.split_text_single_word c word w htext hns hpt hpb hL hiw
  have hcnt := Cell.split_word_length c word (w - c.padding_left - c.padding_right) hiw hL
  obtain ⟨hb1, hb2⟩ := Cell.split_word_chunks c word (w - c.padding_left - c.padding_right) hiw hL
  refine ⟨hmap, ?_, hb1, ?_⟩
  · rw [hmap, List.length_map, hcnt]
  · intro s hs
    exact hb2 s hs

/-- Witness for C4 (amended): default cell with the 8-character word
`'abcdefgh'` at column width 6 (effective wrap width 4, indent 1): 3 chunks
`'abcd'`, `' efg'`, `' h'`. -/
theorem C4_overlong_word_hard_split_witness :
    (' ' ∉ "abcdefgh".toList)
    ∧ (((("abcdefgh".toList : PyStr).length : Int))
        > 6 - (mkCell ["abcdefgh".toList]).padding_left
            - (mkCell ["abcdefgh".toList]).padding_right)
    ∧ ((mkCell ["abcdefgh".toList]).split_text 6).length
      = 1 + (8 - (4:Nat) + 3 - 1) / 3 :=
  ⟨by decide, by decide,
    by
      have h := (C4_overlong_word_hard_split (mkCell ["abcdefgh".toList])
        ("abcdefgh".toList) 6 rfl (by decide) rfl rfl (by decide) (by decide)).2.1
      simpa using h⟩

/-- **C6 (code bug).** `Table.flush` renders and prints, then executes
`self.rows = []` — but the row storage is the `list` subclass's own contents,
which `render` iterates; the assignment creates an unused attribute instead
of clearing them.  After a successful flush of a one-row table the table
still holds its row, so a subsequent render sees one row, not zero. -/
theorem C6_flush_does_not_clear_rows :
    exTable1x1.flush 80
      = Except.ok ("+----+\n| ab |\n+----+".toList,
          { exTable1x1 with rows_attr := some [] })
    ∧ ({ exTable1x1 with rows_attr := some [] } : TextTable).elems = exTable1x1.elems
    ∧ exTable1x1.elems.length = 1 :=
  ⟨rfl, rfl, rfl⟩

/-- **C7, counterexample.**  The claim says an unknown style name fails with
a configuration error before any rendering begins; but `TextTable.__init__`
performs no validation at all (it is a total function that simply records the
style), and the failure instead surfaces as a `KeyError` when rendering first
looks up `STYLES[self.style]`. -/
theorem C7_counterexample_no_construction_failure :
    (TextTable.init [] Option.none "bogus").style = "bogus"
    ∧ STYLES.lookup "bogus" = Option.none
    ∧ exTableBogus.render 80 = Except.error PyError.keyError :=
  ⟨rfl, rfl, rfl⟩

/-- **C8 (corrected).**  A 2-column table whose last row has a single cell:
rendering fails partway with a generic `IndexError` (from an unguarded
neighbor lookup in the border composer), not with the structural-consistency
error `CLGTableError` — which the source defines but never raises — and no
output is emitted, because `flush` aborts before printing. -/
theorem C8_mismatch_fails_with_index_error :
    exTableMismatch.render 80 = Except.error PyError.indexError
    ∧ exTableMismatch.flush 80 = Except.error PyError.indexError
    ∧ PyError.indexError ≠ PyError.clgTableError :=
  ⟨rfl, rfl, by decide⟩

/-- **C8, counterexample.**  The claim as stated — rendering a mismatched
table fails with the structural-consistency error — is false: the error that
occurs is `IndexError`, not `CLGTableError`. -/
theorem C8_counterexample_not_structural_error :
    exTableMismatch.render 80 = Except.error PyError.indexError
    ∧ Except.error PyError.indexError
        ≠ (Except.error PyError.clgTableError : Except PyError (List (List PyStr))) := by
  refine ⟨rfl, ?_⟩
  intro h
  have := Except.error.inj h
  exact absurd this (by decide)

/-- **C9 (corrected).**  Zero rows render as an empty payload and an
empty-text cell renders as a minimal box; but a table containing a row with
*zero cells* does not render — `max(heights)` over the empty list raises
`ValueError`. -/
theorem C9_degenerate_inputs :
    exTableEmpty.render 80 = Except.ok []
    ∧ exTableEmptyText.render 80
        = Except.ok [[['+'], ['-'], ['-'], ['-'], ['+']],
                     [['|'], [' ', ' ', ' '], ['|']],
                     [['+'], ['-'], ['-'], ['-'], ['+']]]
    ∧ exTableZeroCellRow.render 80 = Except.error PyError.valueError :=
  ⟨rfl, rfl, rfl⟩

/-- **C9, counterexample.**  The claim demands that every degenerate input
render successfully; the zero-cell row fails with `ValueError`. -/
theorem C9_counterexample_zero_cell_row_fails :
    exTableZeroCellRow.render 80 = Except.error PyError.valueError
    ∧ ∀ buf : List (List PyStr), exTableZeroCellRow.render 80 ≠ Except.ok buf := by
  refine ⟨rfl, fun buf h => ?_⟩
  rw [show exTableZeroCellRow.render 80 = Except.error PyError.valueError from rfl] at h
  exact Except.noConfusion h

theorem except_ok_bind {α β : Type _} (a : α) (f : α → Except PyError β) :
    (Except.ok a >>= f) = f a := rfl

theorem except_error_bind {α β : Type _} (e : PyError) (f : α → Except PyError β) :
    (Except.error e >>= f) = Except.error e := rfl

theorem STYLES_lookup_cases (name : String) (sty : Role → PyStr)
    (h : STYLES.lookup name = some sty) : sty = modernStyle ∨ sty = classicStyle := by
  cases hb1 : name == "modern" <;> cases hb2 : name == "classic" <;>
    simp [STYLES, List.lookup, hb1, hb2] at h <;>
    simp [h]

/-- **C2 (amended).**  In a 2-row, 2-column table (interior junction =
`get_border('bottomright', 0, 0)`), with no border colors set: when all four
cells have all edges visible the junction renders the style's `intersection`
glyph (`┼` for modern, `+` for classic, instantiated in the witness); when
the two top cells have all borders visible and the two bottom cells have all
borders hidden, the junction renders the style's blank `none` glyph `' '` —
not a tee and not the cross — because the composer's `'&right'` condition
conjoins the top-left cell's `right` flag with the *bottom*-left cell's
`left` flag. -/
theorem C2_interior_junction_glyphs (c00 c01 c10 c11 : Cell) (w1 w2 : Int)
    (styleName : String) (sty : Role → PyStr)
    (hsty : STYLES.lookup styleName = some sty)
    (title : Option PyStr) (rattr : Option (List Row))
    (hc00 : c00.border_color = Option.none) (hc01 : c01.border_color = Option.none)
    (hc10 : c10.border_color = Option.none) (hc11 : c11.border_color = Option.none) :
    ((c00.border_visibility = ⟨true, true, true, true⟩
      ∧ c01.border_visibility = ⟨true, true, true, true⟩
      ∧ c10.border_visibility = ⟨true, true, true, true⟩
      ∧ c11.border_visibility = ⟨true, true, true, true⟩) →
      TextTable.get_border
        { elems := [Row.mk [c00, c01], Row.mk [c10, c11]], widths := [w1, w2],
          title := title, style := styleName, rows_attr := rattr }
        BSide.bottomright 0 0
        = Except.ok (some (sty Role.intersection)))
    ∧ ((c00.border_visibility = ⟨true, true, true, true⟩
        ∧ c01.border_visibility = ⟨true, true, true, true⟩
        ∧ c10.border_visibility = ⟨false, false, false, false⟩
        ∧ c11.border_visibility = ⟨false, false, false, false⟩) →
      TextTable.get_border
        { elems := [Row.mk [c00, c01], Row.mk [c10, c11]], widths := [w1, w2],
          title := title, style := styleName, rows_attr := rattr }
        BSide.bottomright 0 0
        = Except.ok (some (sty Role.none))) := by
  constructor
  · rintro ⟨h00, h01, h10, h11⟩
    rcases STYLES_lookup_cases styleName sty hsty with rfl | rfl <;>
      simp [TextTable.get_border, TextTable.get_symbol, TextTable.evalCond,
        TextTable.get_visibility, TextTable.get_color, hsty, expectIdx, expectKey,
        visSide, oppositeSide, retSym, TextTable.set_color, pyOr, pyTruthy,
        except_ok_bind, except_error_bind, modernStyle, classicStyle,
        List.getElem?_cons_zero, List.getElem?_cons_succ,
        h00, h01, h10, h11, hc00, hc01, hc10, hc11]
  · rintro ⟨h00, h01, h10, h11⟩
    rcases STYLES_lookup_cases styleName sty hsty with rfl | rfl <;>
      simp [TextTable.get_border, TextTable.get_symbol, TextTable.evalCond,
        TextTable.get_visibility, TextTable.get_color, hsty, expectIdx, expectKey,
        visSide, oppositeSide, retSym, TextTable.set_color, pyOr, pyTruthy,
        except_ok_bind, except_error_bind, modernStyle, classicStyle,
        List.getElem?_cons_zero, List.getElem?_cons_succ,
        h00, h01, h10, h11, hc00, hc01, hc10, hc11]

/-- **C2, counterexample.**  In the modern style, with the two top cells
fully bordered and the two bottom cells fully hidden, the interior junction
glyph is the blank `' '` — it is not any of the four tee glyphs the claim
demands, and not the cross. -/
theorem C2_counterexample_top_only_junction_blank :
    exTable2x2TopOnly.get_border BSide.bottomright 0 0 = Except.ok (some [' '])
    ∧ ([' '] : PyStr) ≠ modernStyle Role.topinter
    ∧ ([' '] : PyStr) ≠ modernStyle Role.bottominter
    ∧ ([' '] : PyStr) ≠ modernStyle Role.leftinter
    ∧ ([' '] : PyStr) ≠ modernStyle Role.rightinter
    ∧ ([' '] : PyStr) ≠ modernStyle Role.intersection :=
  ⟨rfl, by decide, by decide, by decide, by decide, by decide⟩

/-- Witness for C2: the all-visible 2×2 grid renders `┼` (modern) and `+`
(classic) at the interior junction; the top-only grid renders the blank. -/
theorem C2_interior_junction_glyphs_witness :
    STYLES.lookup "modern" = some modernStyle
    ∧ exTable2x2AllVisible.get_border BSide.bottomright 0 0
        = Except.ok (some (modernStyle Role.intersection))
    ∧ exTable2x2TopOnly.get_border BSide.bottomright 0 0
        = Except.ok (some (modernStyle Role.none))
    ∧ exTable2x2AllVisibleClassic.get_border BSide.bottomright 0 0
        = Except.ok (some (classicStyle Role.intersection)) := by
  refine ⟨rfl, ?_, ?_, ?_⟩
  · exact (C2_interior_junction_glyphs exCellX exCellX exCellX exCellX 3 3
      "modern" modernStyle rfl Option.none Option.none rfl rfl rfl rfl).1
      ⟨rfl, rfl, rfl, rfl⟩
  · exact (C2_interior_junction_glyphs exCellX exCellX exCellHidden exCellHidden 3 3
      "modern" modernStyle rfl Option.none Option.none rfl rfl rfl rfl).2
      ⟨rfl, rfl, rfl, rfl⟩
  · exact (C2_interior_junction_glyphs exCellX exCellX exCellX exCellX 3 3
      "classic" classicStyle rfl Option.none Option.none rfl rfl rfl rfl).1
      ⟨rfl, rfl, rfl, rfl⟩

theorem getElem?_of_lt {α : Type _} (l : List α) (i : Nat) (h : i < l.length) :
    l[i]? = some (l.get ⟨i, h⟩) := by
  rw [← List.get?_eq_getElem?]
  exact List.get?_eq_some.mpr ⟨h, rfl⟩

theorem heightsOf_isOk (widths : List Int) :
    ∀ (cells : List Cell) (col_idx : Nat), col_idx + cells.length ≤ widths.length →
      ∃ hs, heightsOf widths cells col_idx = Except.ok hs := by
  intro cells
  induction cells with
  | nil => intro col_idx _; exact ⟨[], rfl⟩
  | cons cell cells ih =>
      intro col_idx h
      have hlt : col_idx < widths.length := by
        simp only [List.length_cons] at h
        omega
      obtain ⟨w, hw⟩ : ∃ w, widths[col_idx]? = some w :=
        ⟨widths.get ⟨col_idx, hlt⟩, getElem?_of_lt widths col_idx hlt⟩
      obtain ⟨hs, hhs⟩ := ih (col_idx + 1) (by
        simp only [List.length_cons] at h
        omega)
      refine ⟨(cell.split_text w).length :: hs, ?_⟩
      simp [heightsOf, hw, hhs, expectIdx, except_ok_bind]

theorem rowHeight_cons_isOk (widths : List Int) (cell : Cell) (cells : List Cell)
    (h : (cell :: cells).length ≤ widths.length) :
    ∃ hmax, rowHeight widths (Row.mk (cell :: cells)) = Except.ok hmax := by
  have h0 : 0 < widths.length := by
    simp only [List.length_cons] at h
    omega
  obtain ⟨w, hw⟩ : ∃ w, widths[0]? = some w :=
    ⟨widths.get ⟨0, h0⟩, getElem?_of_lt widths 0 h0⟩
  obtain ⟨hs, hhs⟩ := heightsOf_isOk widths cells 1 (by
    simp only [List.length_cons] at h
    omega)
  refine ⟨hs.foldl max (cell.split_text w).length, ?_⟩
  unfold rowHeight
  rw [show heightsOf widths (cell :: cells) 0
      = Except.ok ((cell.split_text w).length :: hs) by
    simp [heightsOf, hw, hhs, expectIdx, except_ok_bind]]
  rfl

theorem render_eq_error_of_renderRows (t : TextTable) (T : Int) (e : PyError)
    (ht : t.widths = [])
    (h : renderRows { t with widths := (get_columns_widths t.elems T).1 }
          t.elems 0 0 [] = Except.error e) :
    t.render T = Except.error e := by
  unfold TextTable.render
  rw [ht]
  simp only [List.isEmpty_nil, if_true]
  rw [h]
  rfl

/-- **C7 (amended).**  Constructing a table with a style name absent from the
registry succeeds — `TextTable.__init__` validates nothing and records the
style — and the unknown style surfaces only during rendering: for any table
whose first row has at least one cell, `render` fails with a `KeyError` at
the first `STYLES[self.style]` lookup inside `get_border` (width allocation
and the first row's text splitting having already run). -/
theorem C7_amended_unknown_style_fails_at_render (style : String)
    (hsty : STYLES.lookup style = Option.none)
    (cell : Cell) (cells : List Cell) (rows : List Row)
    (wdths : List Int) (title : Option PyStr) (T : Int) :
    (TextTable.init wdths title style).style = style
    ∧ ({ TextTable.init wdths title style with
          elems := Row.mk (cell :: cells) :: rows } : TextTable).render T
        = Except.error PyError.keyError := by
  refine ⟨rfl, ?_⟩
  set elems : List Row := Row.mk (cell :: cells) :: rows with helems
  set ws : List Int := (get_columns_widths elems T).1 with hws
  set t1 : TextTable :=
    { elems := elems, widths := ws, title := title, style := style,
      rows_attr := Option.none } with ht1
  have hlen : (cell :: cells).length ≤ ws.length := by
    rw [hws, get_columns_widths_length]
    exact aggregateColumns_ge elems (Row.mk (cell :: cells)) (List.mem_cons_self _ _)
  have h0 : 0 < ws.length := by
    simp only [List.length_cons] at hlen
    omega
  obtain ⟨w0, hw0⟩ : ∃ w0, ws[0]? = some w0 :=
    ⟨ws.get ⟨0, h0⟩, getElem?_of_lt ws 0 h0⟩
  obtain ⟨hmax, hrh⟩ := rowHeight_cons_isOk ws cell cells hlen
  have he0 : (elems[0]? : Option Row) = some (Row.mk (cell :: cells)) := by
    rw [helems]
    simp
  have hc0 : ((Row.mk (cell :: cells)).cells[0]? : Option Cell) = some cell := by
    simp
  have hgb : TextTable.get_border t1 BSide.topleft 0 0 = Except.error PyError.keyError := by
    simp [TextTable.get_border, ht1, hsty, he0, hc0, expectIdx, expectKey,
      except_ok_bind, except_error_bind]
  have hrc : renderCell t1 0 0 cell hmax 0 [] = Except.error PyError.keyError := by
    simp [renderCell, ht1, hw0, hgb, expectIdx, except_ok_bind, except_error_bind]
  have hrcs : renderCells t1 0 hmax 0 (cell :: cells) 0 [] = Except.error PyError.keyError := by
    simp [renderCells, hrc, except_error_bind]
  have hrr : renderRows t1 elems 0 0 [] = Except.error PyError.keyError := by
    rw [helems]
    simp only [renderRows]
    rw [hrh]
    simp [except_ok_bind, except_error_bind, hrcs]
  apply render_eq_error_of_renderRows
  · rfl
  · show renderRows t1 elems 0 0 [] = Except.error PyError.keyError
    exact hrr

/-- Witness for C7 (amended): style `"bogus"`, a one-cell table, terminal
width 80. -/
theorem C7_amended_unknown_style_fails_at_render_witness :
    STYLES.lookup "bogus" = Option.none
    ∧ (TextTable.init [] Option.none "bogus").style = "bogus"
    ∧ ({ TextTable.init [] Option.none "bogus" with
          elems := Row.mk [exCellX] :: [] } : TextTable).render 80
        = Except.error PyError.keyError :=
  ⟨rfl,
   (C7_amended_unknown_style_fails_at_render "bogus" rfl exCellX [] [] [] Option.none 80).1,
   (C7_amended_unknown_style_fails_at_render "bogus" rfl exCellX [] [] [] Option.none 80).2⟩

/-! ## Lemmas for the single-cell box render (C1) -/

theorem set_concat {α : Type _} (l : List α) (a b : α) :
    (l ++ [a]).set l.length b = l ++ [b] := by
  induction l with
  | nil => rfl
  | cons x xs ih => simp [List.set, ih]

theorem get?_concat_length {α : Type _} (l : List α) (a : α) :
    (l ++ [a]).get? l.length = some a := by
  rw [List.get?_append_right (le_refl _)]
  simp

theorem bufAdd_fresh (lines : List (List PyStr)) (idx : Nat) (s : PyStr) (n : Nat)
    (h : idx = lines.length) (hs : ¬ s.isEmpty) :
    bufAdd lines idx (some s) n = lines ++ [List.replicate n s] := by
  subst h
  unfold bufAdd bufEnsure listModify
  rw [if_neg (by omega)]
  simp [hs, get?_concat_length, set_concat]

theorem bufAdd_last (lines : List (List PyStr)) (idx : Nat) (row : List PyStr)
    (s : PyStr) (n : Nat) (h : idx = lines.length) (hs : ¬ s.isEmpty) :
    bufAdd (lines ++ [row]) idx (some s) n = lines ++ [row ++ List.replicate n s] := by
  subst h
  unfold bufAdd bufEnsure listModify
  rw [if_pos (by simp)]
  simp [hs, get?_concat_length, set_concat]

theorem bufAdd_last_empty (lines : List (List PyStr)) (idx : Nat) (row : List PyStr)
    (n : Nat) (h : idx = lines.length) :
    bufAdd (lines ++ [row]) idx (some []) n = lines ++ [row] := by
  subst h
  unfold bufAdd bufEnsure listModify
  rw [if_pos (by simp)]
  simp

theorem renderTextRows_box (t1 : TextTable) (c : Cell) (textLines : List PyStr) (w : Int)
    (hlv : t1.get_border BSide.leftvert 0 0 = Except.ok (some ['|']))
    (hrv : t1.get_border BSide.rightvert 0 0 = Except.ok (some ['|']))
    (htc : c.text_color = Option.none) :
    ∀ (count k : Nat) (lines : List (List PyStr)),
      lines.length = k → 1 ≤ k → (k - 1) + count ≤ textLines.length →
      renderTextRows t1 0 0 c textLines w 0 count k lines
        = Except.ok (lines ++ ((textLines.drop (k-1)).take count).map
            (fun s => if s.isEmpty then [[('|' : Char)], ['|']] else [['|'], s, ['|']])) := by
  intro count
  induction count with
  | zero =>
      intro k lines _ _ _
      simp only [renderTextRows, List.take_zero, List.map_nil, List.append_nil]
      rfl
  | succ count ih =>
      intro k lines hlen hk hcnt
      have hlt : k - 1 < textLines.length := by omega
      have hsome : textLines.get? (k - 1) = some (textLines.get ⟨k - 1, hlt⟩) :=
        List.get?_eq_some.mpr ⟨hlt, rfl⟩
      simp only [renderTextRows, hlv, except_ok_bind, Nat.zero_add]
      rw [bufAdd_fresh lines k ['|'] 1 hlen.symm (by simp), hsome]
      dsimp only
      rw [show TextTable.set_color (textLines.get ⟨k - 1, hlt⟩) c.text_color
          = textLines.get ⟨k - 1, hlt⟩ from by rw [htc]; rfl]
      have hk1 : k - 1 + 1 = k := by omega
      have hdrop : textLines.drop (k - 1)
          = textLines.get ⟨k - 1, hlt⟩ :: textLines.drop k := by
        rw [List.drop_eq_get_cons hlt, hk1]
      by_cases hemp : (textLines.get ⟨k - 1, hlt⟩).isEmpty
      · have hnil : textLines.get ⟨k - 1, hlt⟩ = [] := by
          cases h : textLines.get ⟨k - 1, hlt⟩ with
          | nil => rfl
          | cons a l => rw [h] at hemp; simp at hemp
        rw [hnil, bufAdd_last_empty lines k (List.replicate 1 ['|']) 1 hlen.symm]
        rw [hrv, except_ok_bind]
        rw [bufAdd_last lines k (List.replicate 1 ['|']) ['|'] 1 hlen.symm (by simp)]
        rw [ih (k + 1) (lines ++ [List.replicate 1 ['|'] ++ List.replicate 1 ['|']])
          (by simp [hlen]) (by omega) (by omega)]
        rw [hdrop, hnil]
        simp
      · rw [bufAdd_last lines k (List.replicate 1 ['|'])
          (textLines.get ⟨k - 1, hlt⟩) 1 hlen.symm hemp]
        rw [hrv, except_ok_bind]
        rw [bufAdd_last lines k
          (List.replicate 1 ['|'] ++ List.replicate 1 (textLines.get ⟨k - 1, hlt⟩))
          ['|'] 1 hlen.symm (by simp)]
        rw [ih (k + 1)
          (lines ++ [List.replicate 1 ['|'] ++ List.replicate 1 (textLines.get ⟨k - 1, hlt⟩)
            ++ List.replicate 1 ['|']])
          (by simp [hlen]) (by omega) (by omega)]
        rw [hdrop]
        have hne : textLines.get ⟨k - 1, hlt⟩ ≠ [] := by
          intro hcon
          rw [hcon] at hemp
          simp at hemp
        rw [List.get_eq_getElem] at hne
        simp [hemp, hne]

theorem C1_borders (c : Cell) (w0 : Int)
    (hv : c.border_visibility = ⟨true, true, true, true⟩)
    (hbc : c.border_color = Option.none) :
    ((classicTable1x1 c w0).get_border BSide.topleft 0 0 = Except.ok (some ['+']))
    ∧ ((classicTable1x1 c w0).get_border BSide.tophoriz 0 0 = Except.ok (some ['-']))
    ∧ ((classicTable1x1 c w0).get_border BSide.topright 0 0 = Except.ok (some ['+']))
    ∧ ((classicTable1x1 c w0).get_border BSide.leftvert 0 0 = Except.ok (some ['|']))
    ∧ ((classicTable1x1 c w0).get_border BSide.rightvert 0 0 = Except.ok (some ['|']))
    ∧ ((classicTable1x1 c w0).get_border BSide.bottomleft 0 0 = Except.ok (some ['+']))
    ∧ ((classicTable1x1 c w0).get_border BSide.bottomhoriz 0 0 = Except.ok (some ['-']))
    ∧ ((classicTable1x1 c w0).get_border BSide.bottomright 0 0 = Except.ok (some ['+'])) := by
  refine ⟨?_, ?_, ?_, ?_, ?_, ?_, ?_, ?_⟩ <;>
    simp [classicTable1x1, TextTable.get_border, TextTable.get_symbol, TextTable.evalCond,
      TextTable.get_visibility, TextTable.get_color, STYLES, List.lookup, classicStyle,
      expectIdx, expectKey, visSide, oppositeSide, retSym, TextTable.set_color,
      pyOr, pyTruthy, except_ok_bind, except_error_bind, hv, hbc]

theorem render_eq_ok_of_renderRows (t : TextTable) (T : Int) (buf : List (List PyStr))
    (ht : t.widths = []) (htitle : t.title = Option.none)
    (h : renderRows { t with widths := (get_columns_widths t.elems T).1 } t.elems 0 0 []
        = Except.ok buf) :
    t.render T = Except.ok buf := by
  unfold TextTable.render
  rw [ht]
  simp only [List.isEmpty_nil, if_true]
  rw [h]
  simp [except_ok_bind, htitle]

theorem borderRunBuf (buf : List (List PyStr)) (idx : Nat) (n : Nat)
    (h : idx = buf.length) :
    bufAdd (bufAdd (bufAdd buf idx (some ['+']) 1) idx (some ['-']) n)
        idx (some ['+']) 1
      = buf ++ [[['+']] ++ List.replicate n ['-'] ++ [['+']]] := by
  subst h
  rw [bufAdd_fresh buf buf.length ['+'] 1 rfl (by simp)]
  rw [bufAdd_last buf buf.length (List.replicate 1 ['+']) ['-'] n rfl (by simp)]
  rw [bufAdd_last buf buf.length (List.replicate 1 ['+'] ++ List.replicate n ['-'])
    ['+'] 1 rfl (by simp)]
  simp

/-- **C1.** A table of exactly one row with exactly one cell, all four
border-visibility flags true, no colors, no title, style `'classic'`:
rendering (at any injected terminal width) produces a plain ASCII box —
`+` at all four corners, a run of `-` of length equal to the allocated
column width on the top and bottom edges, and `|` at the left and right of
every text line. -/
theorem C1_classic_single_cell_box (c : Cell) (T : Int)
    (hv : c.border_visibility = ⟨true, true, true, true⟩)
    (hbc : c.border_color = Option.none)
    (htc : c.text_color = Option.none) :
    ∃ w0 : Int,
      (get_columns_widths [Row.mk [c]] T).1 = [w0]
      ∧ ({ TextTable.init [] Option.none "classic" with elems := [Row.mk [c]] }
          : TextTable).render T
        = Except.ok
            (([['+']] ++ List.replicate w0.toNat ['-'] ++ [['+']])
              :: ((c.split_text w0).map
                    (fun s => if s.isEmpty then [[('|' : Char)], ['|']] else [['|'], s, ['|']])
                  ++ [[['+']] ++ List.replicate w0.toNat ['-'] ++ [['+']]])) := by
  have hlen1 : (get_columns_widths [Row.mk [c]] T).1.length = 1 := by
    rw [get_columns_widths_length]
    rfl
  obtain ⟨w0, hw0⟩ := List.length_eq_one.mp hlen1
  obtain ⟨hb1, hb2, hb3, hb4, hb5, hb6, hb7, hb8⟩ := C1_borders c w0 hv hbc
  refine ⟨w0, hw0, ?_⟩
  apply render_eq_ok_of_renderRows _ _ _ rfl rfl
  rw [show ({ TextTable.init [] Option.none "classic" with elems := [Row.mk [c]] }
      : TextTable).elems = [Row.mk [c]] from rfl]
  rw [hw0]
  show renderRows (classicTable1x1 c w0) [Row.mk [c]] 0 0 [] = _
  have hrh : rowHeight (classicTable1x1 c w0).widths (Row.mk [c])
      = Except.ok (c.split_text w0).length := by
    rw [show (classicTable1x1 c w0).widths = [w0] from rfl]
    unfold rowHeight
    rw [show heightsOf [w0] [c] 0 = Except.ok [(c.split_text w0).length] from by
      simp [heightsOf, expectIdx, except_ok_bind]]
    rfl
  simp only [renderRows]
  rw [hrh]
  simp only [except_ok_bind]
  simp only [renderCells, renderCell]
  rw [show expectIdx ((classicTable1x1 c w0).widths.get? 0) = Except.ok w0 from rfl]
  simp only [except_ok_bind]
  rw [hb1]
  simp only [except_ok_bind]
  rw [hb2]
  simp only [except_ok_bind]
  rw [hb3]
  simp only [except_ok_bind]
  rw [borderRunBuf [] 0 w0.toNat rfl]
  simp only [List.nil_append]
  rw [renderTextRows_box (classicTable1x1 c w0) c (c.split_text w0) w0 hb4 hb5 htc
    (c.split_text w0).length 1
    [[['+']] ++ List.replicate w0.toNat ['-'] ++ [['+']]]
    rfl (le_refl 1) (by omega)]
  simp only [except_ok_bind]
  simp only [Nat.sub_self, List.drop_zero, List.take_length]
  rw [hb6]
  simp only [except_ok_bind]
  rw [hb7]
  simp only [except_ok_bind]
  rw [hb8]
  simp only [except_ok_bind]
  rw [borderRunBuf
    ([[['+']] ++ List.replicate w0.toNat ['-'] ++ [['+']]]
      ++ List.map (fun s => if List.isEmpty s = true then [[('|' : Char)], ['|']]
          else [['|'], s, ['|']]) (c.split_text w0))
    (0 + (c.split_text w0).length + 1) w0.toNat (by simp)]
  simp
  rfl

/-- Witness for C1: the default cell `'ab'` at terminal width 80 (the
allocator gives column width 4, so the box is `+----+ / | ab | / +----+`). -/
theorem C1_classic_single_cell_box_witness :
    ((mkCell ["ab".toList]).border_visibility = ⟨true, true, true, true⟩)
    ∧ ∃ w0 : Int,
        (get_columns_widths [Row.mk [mkCell ["ab".toList]]] 80).1 = [w0]
        ∧ ({ TextTable.init [] Option.none "classic" with
              elems := [Row.mk [mkCell ["ab".toList]]] } : TextTable).render 80
          = Except.ok
              (([['+']] ++ List.replicate w0.toNat ['-'] ++ [['+']])
                :: (((mkCell ["ab".toList]).split_text w0).map
                      (fun s => if s.isEmpty then [[('|' : Char)], ['|']]
                        else [['|'], s, ['|']])
                    ++ [[['+']] ++ List.replicate w0.toNat ['-'] ++ [['+']]])) :=
  ⟨rfl, C1_classic_single_cell_box (mkCell ["ab".toList]) 80 rfl rfl rfl⟩
